import Mathlib

/-
Shallow embedding of the cstore_fdw writer core (src/cstore_writer.c) and proofs
of the specified properties of its stripe-assembly pipeline, stripe flush
protocol, footer write protocol, and paged data-fork writer.

Modelling conventions:
  * Machine integers are modelled as Nat; byte buffers (StringInfo) are List Nat.
  * Datums are an abstract value type alpha; per-column external collaborators
    (the comparison function obtained via GetFunctionInfoOrNull/FunctionCall2Coll,
    the datum serializer internals, the metadata serializers from
    cstore_metadata_serialization.c, and CompressBuffer) are opaque parameters
    carried in a WriterEnv, exactly as the C code treats them as opaque calls.
  * C arrays indexed by column/block are modelled as total functions Nat -> _
    with pointwise functional update; the two views agree on every in-bounds
    access. The working block data additionally records the row count its
    arrays were allocated with (allocatedRowCount, from CreateEmptyBlockDataArray
    at cstore_writer.c:162), so an access the C code would make past its
    allocation — possible when CStoreBeginWrite's blockRowCount argument is
    smaller than a persisted footer's — is statable as an index at or past
    allocatedRowCount, even though the total-function view stays defined there.
  * The data fork is observed at two levels: the session model records the byte
    stream handed to WriteToFile (field emitted), and writeToFileLoop models
    the page-splitting loop of WriteToFile itself.
-/

namespace CStoreFdw

/-- Compression kinds of cstore_fdw (COMPRESSION_NONE and COMPRESSION_PG_LZ). -/
inductive CompressionType where
  | none
  | pgLz
deriving DecidableEq, Repr

/-- StripeMetadata: file offset and section lengths of one flushed stripe,
as recorded in the table footer. -/
structure StripeMetadata where
  fileOffset : Nat
  skipListLength : Nat
  dataLength : Nat
  footerLength : Nat
deriving DecidableEq, Repr

/-- TableFooter: persisted block row count and the ordered stripe metadata list. -/
structure TableFooter where
  blockRowCount : Nat
  stripeMetadataList : List StripeMetadata
deriving DecidableEq, Repr

/-- ColumnBlockSkipNode: per-(column, block) statistics and buffer locations. -/
structure ColumnBlockSkipNode (α : Type) where
  rowCount : Nat
  hasMinMax : Bool
  minimumValue : α
  maximumValue : α
  existsBlockOffset : Nat
  existsLength : Nat
  valueBlockOffset : Nat
  valueLength : Nat
  valueCompressionType : CompressionType

/-- A zero-initialized skip node, as produced by palloc0 in
CreateEmptyStripeSkipList. -/
def emptyBlockSkipNode (α : Type) [Inhabited α] : ColumnBlockSkipNode α :=
  { rowCount := 0, hasMinMax := false, minimumValue := default, maximumValue := default,
    existsBlockOffset := 0, existsLength := 0, valueBlockOffset := 0, valueLength := 0,
    valueCompressionType := CompressionType.none }

instance (α : Type) [Inhabited α] : Inhabited (ColumnBlockSkipNode α) :=
  ⟨emptyBlockSkipNode α⟩

/-- StripeSkipList: the per-column arrays of block skip nodes, indexed as
column then block. -/
structure StripeSkipList (α : Type) where
  blockSkipNodeArray : Nat → Nat → ColumnBlockSkipNode α
  columnCount : Nat
  blockCount : Nat

/-- ColumnBlockBuffers: serialized exists and value buffers of one block of one
column; NULL buffers (not yet serialized) are Option.none. -/
structure ColumnBlockBuffers where
  existsBuffer : Option (List Nat)
  valueBuffer : Option (List Nat)
  valueCompressionType : CompressionType

/-- ColumnBuffers: all block buffers of one column. -/
structure ColumnBuffers where
  blockBuffersArray : Nat → ColumnBlockBuffers

/-- StripeBuffers: in-flight stripe state (per-column block buffers and the
row count of the stripe so far). -/
structure StripeBuffers where
  columnBuffersArray : Nat → ColumnBuffers
  rowCount : Nat

/-- ColumnBlockData: the working (unfrozen) data of the current block of one
column: the exists flag array and the growing serialized value buffer.
allocatedRowCount records the row count CreateEmptyBlockDataArray sized the
exists and value arrays with (CStoreBeginWrite passes its own blockRowCount
argument there, cstore_writer.c:162); an exists-flag write at an index at or
past allocatedRowCount lands outside the C allocation (the total-function
view of the array keeps the model defined there regardless). -/
structure ColumnBlockData where
  existsArray : Nat → Bool
  valueBuffer : List Nat
  allocatedRowCount : Nat

/-- ColumnSchema bundles the per-column external collaborators: the optional
btree comparison function (collation already folded in, as FunctionCall2Coll
does) returning negative/zero/positive, the per-type datum serializer
(the bytes SerializeSingleDatum appends for one value of this column), and the
per-column skip list serializer from cstore_metadata_serialization.c. -/
structure ColumnSchema (α : Type) where
  cmp : Option (α → α → Int)
  serializeDatum : α → List Nat
  serializeSkipList : List (ColumnBlockSkipNode α) → List Nat

instance (α : Type) : Inhabited (ColumnSchema α) :=
  ⟨{ cmp := Option.none, serializeDatum := fun _ => [], serializeSkipList := fun _ => [] }⟩

/-- StripeFooter: per-column skip list, exists, and value byte totals. -/
structure StripeFooter where
  columnCount : Nat
  skipListSizeArray : List Nat
  existsSizeArray : List Nat
  valueSizeArray : List Nat

/-- WriterEnv bundles the external collaborators the writer calls opaquely:
the column schemas (tupleDescriptor plus comparisonFunctionArray), the
compression codec (CompressBuffer: some compressed output when it compressed,
none when it did not), and the stripe footer serializer. -/
structure WriterEnv (α : Type) where
  columns : List (ColumnSchema α)
  compressBuffer : List Nat → CompressionType → Option (List Nat)
  serializeStripeFooter : StripeFooter → List Nat

/-- TableWriteState: the session state of one write (fields of the C struct
that the verified claims depend on; emitted is the byte stream this session
has handed to WriteToFile for the data fork). -/
structure TableWriteState (α : Type) where
  tableFooter : TableFooter
  compressionType : CompressionType
  stripeMaxRowCount : Nat
  currentFileOffset : Nat
  stripeBuffers : Option StripeBuffers
  stripeSkipList : Option (StripeSkipList α)
  blockDataArray : Nat → ColumnBlockData
  emitted : List Nat

/-- Pointwise functional update of a one-dimensional array view. -/
def setFn {β : Type} (f : Nat → β) (i : Nat) (v : β) : Nat → β :=
  fun j => if j = i then v else f j

/-- Pointwise functional modification of a one-dimensional array view. -/
def modifyFn {β : Type} (f : Nat → β) (i : Nat) (g : β → β) : Nat → β :=
  fun j => if j = i then g (f j) else f j

/-- Pointwise functional modification of a two-dimensional array view. -/
def modifyFn2 {β : Type} (f : Nat → Nat → β) (i j : Nat) (g : β → β) : Nat → Nat → β :=
  fun i2 j2 => if i2 = i ∧ j2 = j then g (f i2 j2) else f i2 j2

/-- SerializeBoolArray (cstore_writer.c:828): pack boolArrayLength flags into
ceil(boolArrayLength/8) bytes, bit (i mod 8) of byte (i div 8), zero elsewhere. -/
def serializeBoolArray (boolArray : Nat → Bool) (boolArrayLength : Nat) : List Nat :=
  (List.range ((boolArrayLength + 7) / 8)).map fun byteIndex =>
    (List.range 8).foldl
      (fun byteValue bitIndex =>
        if byteIndex * 8 + bitIndex < boolArrayLength then
          if boolArray (byteIndex * 8 + bitIndex) then byteValue + 2 ^ bitIndex
          else byteValue
        else byteValue)
      0

/-- UpdateBlockSkipNodeMinMax (cstore_writer.c:963). DatumCopy is the identity
under the value semantics of the embedding; the collation argument is folded
into the comparison function. -/
def updateBlockSkipNodeMinMax {α : Type} (blockSkipNode : ColumnBlockSkipNode α)
    (columnValue : α) (comparisonFunction : Option (α → α → Int)) :
    ColumnBlockSkipNode α :=
  match comparisonFunction with
  | Option.none => blockSkipNode
  | Option.some cmp =>
    if blockSkipNode.hasMinMax = false then
      { blockSkipNode with
        hasMinMax := true
        minimumValue := columnValue
        maximumValue := columnValue }
    else
      let minimumComparison := cmp columnValue blockSkipNode.minimumValue
      let maximumComparison := cmp columnValue blockSkipNode.maximumValue
      let currentMinimum :=
        if minimumComparison < 0 then columnValue else blockSkipNode.minimumValue
      let currentMaximum :=
        if 0 < maximumComparison then columnValue else blockSkipNode.maximumValue
      { blockSkipNode with
        hasMinMax := true
        minimumValue := currentMinimum
        maximumValue := currentMaximum }

/-- ColumnBlockBuffers as allocated by CreateEmptyStripeBuffers
(cstore_writer.c:566-572): both serialized buffers NULL, compression NONE. -/
def emptyColumnBlockBuffers : ColumnBlockBuffers :=
  { existsBuffer := Option.none, valueBuffer := Option.none,
    valueCompressionType := CompressionType.none }

/-- CreateEmptyStripeBuffers (cstore_writer.c:551): fresh block buffers for
every column and block, row count zero. The C code allocates
stripeMaxRowCount / blockRowCount + 1 blocks per column; the embedding gives a
total array view of which the code only touches that allocated range. -/
def createEmptyStripeBuffers : StripeBuffers :=
  { columnBuffersArray := fun _ => { blockBuffersArray := fun _ => emptyColumnBlockBuffers },
    rowCount := 0 }

/-- CreateEmptyStripeSkipList (cstore_writer.c:592): zero-initialized skip
nodes for every column and block. -/
def createEmptyStripeSkipList (α : Type) [Inhabited α] (columnCount : Nat) :
    StripeSkipList α :=
  { blockSkipNodeArray := fun _ _ => emptyBlockSkipNode α,
    columnCount := columnCount, blockCount := 0 }

/-- Modification of the block buffers of one (column, block) pair. -/
def StripeBuffers.modifyBlock (stripeBuffers : StripeBuffers) (columnIndex blockIndex : Nat)
    (g : ColumnBlockBuffers → ColumnBlockBuffers) : StripeBuffers :=
  { stripeBuffers with
    columnBuffersArray := modifyFn stripeBuffers.columnBuffersArray columnIndex
      (fun cb => { blockBuffersArray := modifyFn cb.blockBuffersArray blockIndex g }) }

/-- Serialized exists bytes of one block of one column (empty when the block
has not been frozen yet). -/
def blockExistsBytes (stripeBuffers : StripeBuffers) (columnIndex blockIndex : Nat) :
    List Nat :=
  (((stripeBuffers.columnBuffersArray columnIndex).blockBuffersArray blockIndex).existsBuffer).getD []

/-- Serialized value bytes of one block of one column. -/
def blockValueBytes (stripeBuffers : StripeBuffers) (columnIndex blockIndex : Nat) :
    List Nat :=
  (((stripeBuffers.columnBuffersArray columnIndex).blockBuffersArray blockIndex).valueBuffer).getD []

/-- Compression recorded for one block of one column. -/
def blockCompression (stripeBuffers : StripeBuffers) (columnIndex blockIndex : Nat) :
    CompressionType :=
  ((stripeBuffers.columnBuffersArray columnIndex).blockBuffersArray blockIndex).valueCompressionType

/-- SerializeBlockData (cstore_writer.c:896): first loop freezes the exists
arrays of every column into serialized exists buffers; second loop compresses
each value buffer (falling back to the uncompressed bytes when the codec
declines), stores it, and resets the working value buffer for the next block. -/
def serializeBlockData {α : Type} (env : WriterEnv α) (compressionType : CompressionType)
    (stripeBuffers : StripeBuffers) (blockDataArray : Nat → ColumnBlockData)
    (blockIndex rowCount : Nat) : StripeBuffers × (Nat → ColumnBlockData) :=
  let stripeBuffers := (List.range env.columns.length).foldl
    (fun sb columnIndex =>
      sb.modifyBlock columnIndex blockIndex (fun bb =>
        { bb with existsBuffer :=
            Option.some (serializeBoolArray (blockDataArray columnIndex).existsArray rowCount) }))
    stripeBuffers
  (List.range env.columns.length).foldl
    (fun (acc : StripeBuffers × (Nat → ColumnBlockData)) columnIndex =>
      let blockData := acc.2 columnIndex
      let compressedResult := env.compressBuffer blockData.valueBuffer compressionType
      let serializedValueBuffer :=
        match compressedResult with
        | Option.some compressed => compressed
        | Option.none => blockData.valueBuffer
      let actualCompressionType :=
        match compressedResult with
        | Option.some _ => CompressionType.pgLz
        | Option.none => CompressionType.none
      (acc.1.modifyBlock columnIndex blockIndex (fun bb =>
         { bb with
           valueBuffer := Option.some serializedValueBuffer
           valueCompressionType := actualCompressionType }),
       modifyFn acc.2 columnIndex (fun bd => { bd with valueBuffer := [] })))
    (stripeBuffers, blockDataArray)

/-- Per-column working-data update of CStoreWriteRow (cstore_writer.c:253-283):
null rows clear the exists flag and do not touch the value buffer; non-null
rows set the exists flag and append the serialized datum. -/
def writeRowColumnData {α : Type} (schema : ColumnSchema α) (columnValue : α)
    (isNull : Bool) (blockRowIndex : Nat) (blockData : ColumnBlockData) :
    ColumnBlockData :=
  if isNull then
    { blockData with existsArray := setFn blockData.existsArray blockRowIndex false }
  else
    { blockData with
      existsArray := setFn blockData.existsArray blockRowIndex true
      valueBuffer := blockData.valueBuffer ++ schema.serializeDatum columnValue }

/-- Per-column skip node update of CStoreWriteRow (cstore_writer.c:260-285):
only non-null rows consult min/max; the node row count is incremented in both
branches (line 285 sits outside the null check). -/
def writeRowSkipNode {α : Type} (schema : ColumnSchema α) (columnValue : α)
    (isNull : Bool) (blockSkipNode : ColumnBlockSkipNode α) : ColumnBlockSkipNode α :=
  if isNull then
    { blockSkipNode with rowCount := blockSkipNode.rowCount + 1 }
  else
    let nd := updateBlockSkipNodeMinMax blockSkipNode columnValue schema.cmp
    { nd with rowCount := nd.rowCount + 1 }

/-- One iteration of the per-column loop of CStoreWriteRow: updates column
columnIndex of the skip list (at the current block) and of the working block
data (at the current block row). -/
def writeRowStep {α : Type} (env : WriterEnv α) (columnValues : Nat → α)
    (columnNulls : Nat → Bool) (blockIndex blockRowIndex : Nat)
    (acc : StripeSkipList α × (Nat → ColumnBlockData)) (columnIndex : Nat) :
    StripeSkipList α × (Nat → ColumnBlockData) :=
  let schema := env.columns.getD columnIndex default
  ({ acc.1 with
     blockSkipNodeArray := modifyFn2 acc.1.blockSkipNodeArray columnIndex blockIndex
       (writeRowSkipNode schema (columnValues columnIndex) (columnNulls columnIndex)) },
   modifyFn acc.2 columnIndex
     (writeRowColumnData schema (columnValues columnIndex) (columnNulls columnIndex)
       blockRowIndex))

/-- AppendStripeMetadata (cstore_writer.c:1048): lappend a copy of the stripe
metadata to the footer list. -/
def appendStripeMetadata (tableFooter : TableFooter) (stripeMetadata : StripeMetadata) :
    TableFooter :=
  { tableFooter with
    stripeMetadataList := tableFooter.stripeMetadataList ++ [stripeMetadata] }

/-- Running-offset pass of FlushStripe (cstore_writer.c:655-680): for each
column, walk its blocks accumulating exists and value offsets relative to the
start of that column's regions and record buffer lengths and compression in
every skip node. -/
def updateSkipListOffsets {α : Type} (columnCount : Nat) (stripeSkipList : StripeSkipList α)
    (stripeBuffers : StripeBuffers) : StripeSkipList α :=
  (List.range columnCount).foldl
    (fun ssl columnIndex =>
      ((List.range stripeSkipList.blockCount).foldl
        (fun (acc : StripeSkipList α × Nat × Nat) blockIndex =>
          let existsBufferSize := (blockExistsBytes stripeBuffers columnIndex blockIndex).length
          let valueBufferSize := (blockValueBytes stripeBuffers columnIndex blockIndex).length
          ({ acc.1 with
             blockSkipNodeArray := modifyFn2 acc.1.blockSkipNodeArray columnIndex blockIndex
               (fun nd =>
                 { nd with
                   existsBlockOffset := acc.2.1
                   existsLength := existsBufferSize
                   valueBlockOffset := acc.2.2
                   valueLength := valueBufferSize
                   valueCompressionType := blockCompression stripeBuffers columnIndex blockIndex }) },
           (acc.2.1 + existsBufferSize, acc.2.2 + valueBufferSize)))
        (ssl, (0, 0))).1)
    stripeSkipList

/-- CreateSkipListBufferArray (cstore_writer.c:762): serialize each column's
first blockCount skip nodes through the opaque metadata serializer. -/
def createSkipListBufferArray {α : Type} (env : WriterEnv α)
    (stripeSkipList : StripeSkipList α) : List (List Nat) :=
  (List.range stripeSkipList.columnCount).map fun columnIndex =>
    (env.columns.getD columnIndex default).serializeSkipList
      ((List.range stripeSkipList.blockCount).map fun blockIndex =>
        stripeSkipList.blockSkipNodeArray columnIndex blockIndex)

/-- CreateStripeFooter (cstore_writer.c:790): per-column sums of exists and
value lengths over the blocks, and the skip list buffer lengths. -/
def createStripeFooter {α : Type} (stripeSkipList : StripeSkipList α)
    (skipListBufferArray : List (List Nat)) : StripeFooter :=
  { columnCount := stripeSkipList.columnCount
    skipListSizeArray := skipListBufferArray.map List.length
    existsSizeArray := (List.range stripeSkipList.columnCount).map fun columnIndex =>
      ((List.range stripeSkipList.blockCount).map fun blockIndex =>
        (stripeSkipList.blockSkipNodeArray columnIndex blockIndex).existsLength).sum
    valueSizeArray := (List.range stripeSkipList.columnCount).map fun columnIndex =>
      ((List.range stripeSkipList.blockCount).map fun blockIndex =>
        (stripeSkipList.blockSkipNodeArray columnIndex blockIndex).valueLength).sum }

/-- Last-block serialization step of FlushStripe (cstore_writer.c:641-652):
when the final block is partial, run SerializeBlockData on it at its actual
row count; returns the stripe buffers and working block data afterwards. -/
def flushStripeSerialized {α : Type} (env : WriterEnv α)
    (writeState : TableWriteState α) : StripeBuffers × (Nat → ColumnBlockData) :=
  let stripeBuffers := writeState.stripeBuffers.getD createEmptyStripeBuffers
  let blockRowCount := writeState.tableFooter.blockRowCount
  let lastBlockIndex := stripeBuffers.rowCount / blockRowCount
  let lastBlockRowCount := stripeBuffers.rowCount % blockRowCount
  if 0 < lastBlockRowCount then
    serializeBlockData env writeState.compressionType stripeBuffers
      writeState.blockDataArray lastBlockIndex lastBlockRowCount
  else (stripeBuffers, writeState.blockDataArray)

/-- Skip list of the stripe being flushed, after the offset-filling pass. -/
def flushStripeSkipList {α : Type} (env : WriterEnv α) [Inhabited α]
    (writeState : TableWriteState α) : StripeSkipList α :=
  updateSkipListOffsets env.columns.length
    (writeState.stripeSkipList.getD (createEmptyStripeSkipList α 0))
    (flushStripeSerialized env writeState).1

/-- FlushStripe (cstore_writer.c:623): serialize the last partial block if one
is open, fill in the skip node offsets, build the skip list and stripe footer
buffers, emit skip list buffers in column order, then per column all exists
buffers in block order followed by all value buffers in block order, then the
stripe footer; report the stripe metadata and advance currentFileOffset by the
sum of the three reported lengths. -/
def flushStripe {α : Type} (env : WriterEnv α) [Inhabited α]
    (writeState : TableWriteState α) : StripeMetadata × TableWriteState α :=
  let columnCount := env.columns.length
  let stripeBuffers := (flushStripeSerialized env writeState).1
  let blockDataArray := (flushStripeSerialized env writeState).2
  let stripeSkipList := flushStripeSkipList env writeState
  let skipListBufferArray := createSkipListBufferArray env stripeSkipList
  let stripeFooter := createStripeFooter stripeSkipList skipListBufferArray
  let stripeFooterBuffer := env.serializeStripeFooter stripeFooter
  let emitted := skipListBufferArray.foldl (fun acc buf => acc ++ buf) writeState.emitted
  let emitted := (List.range columnCount).foldl
    (fun acc columnIndex =>
      let acc := (List.range stripeSkipList.blockCount).foldl
        (fun acc2 blockIndex => acc2 ++ blockExistsBytes stripeBuffers columnIndex blockIndex) acc
      (List.range stripeSkipList.blockCount).foldl
        (fun acc2 blockIndex => acc2 ++ blockValueBytes stripeBuffers columnIndex blockIndex) acc)
    emitted
  let emitted := emitted ++ stripeFooterBuffer
  let skipListLength := (List.range columnCount).foldl
    (fun acc columnIndex => acc + stripeFooter.skipListSizeArray.getD columnIndex 0) 0
  let dataLength := (List.range columnCount).foldl
    (fun acc columnIndex =>
      acc + stripeFooter.existsSizeArray.getD columnIndex 0
        + stripeFooter.valueSizeArray.getD columnIndex 0) 0
  let stripeMetadata : StripeMetadata :=
    { fileOffset := writeState.currentFileOffset
      skipListLength := skipListLength
      dataLength := dataLength
      footerLength := stripeFooterBuffer.length }
  (stripeMetadata,
   { writeState with
     stripeBuffers := Option.some stripeBuffers
     stripeSkipList := Option.some stripeSkipList
     blockDataArray := blockDataArray
     emitted := emitted
     currentFileOffset :=
       writeState.currentFileOffset + skipListLength + dataLength + stripeFooterBuffer.length })

/-- CStoreWriteRow (cstore_writer.c:215): create stripe state on the first row
of a stripe, update every column at the current (block, block row) position,
bump the skip list block count, freeze the block when its last row arrives,
and flush the stripe (appending its metadata to the footer) once the stripe
row count reaches stripeMaxRowCount. -/
def cstoreWriteRow {α : Type} (env : WriterEnv α) [Inhabited α]
    (writeState : TableWriteState α) (columnValues : Nat → α)
    (columnNulls : Nat → Bool) : TableWriteState α :=
  let columnCount := env.columns.length
  let blockRowCount := writeState.tableFooter.blockRowCount
  let active :=
    match writeState.stripeBuffers, writeState.stripeSkipList with
    | Option.some sb, Option.some ssl => (sb, ssl, writeState.blockDataArray)
    | _, _ =>
      (createEmptyStripeBuffers, createEmptyStripeSkipList α columnCount,
       fun columnIndex =>
         { writeState.blockDataArray columnIndex with valueBuffer := ([] : List Nat) })
  let stripeBuffers := active.1
  let blockIndex := stripeBuffers.rowCount / blockRowCount
  let blockRowIndex := stripeBuffers.rowCount % blockRowCount
  let stepped := (List.range columnCount).foldl
    (writeRowStep env columnValues columnNulls blockIndex blockRowIndex)
    (active.2.1, active.2.2)
  let stripeSkipList := { stepped.1 with blockCount := blockIndex + 1 }
  let blockFrozen :=
    if blockRowIndex = blockRowCount - 1 then
      serializeBlockData env writeState.compressionType stripeBuffers stepped.2
        blockIndex blockRowCount
    else (stripeBuffers, stepped.2)
  let stripeBuffers := { blockFrozen.1 with rowCount := blockFrozen.1.rowCount + 1 }
  if writeState.stripeMaxRowCount ≤ stripeBuffers.rowCount then
    let flushed := flushStripe env
      { writeState with
        stripeBuffers := Option.some stripeBuffers
        stripeSkipList := Option.some stripeSkipList
        blockDataArray := blockFrozen.2 }
    { flushed.2 with
      stripeBuffers := Option.none
      stripeSkipList := Option.none
      tableFooter := appendStripeMetadata flushed.2.tableFooter flushed.1 }
  else
    { writeState with
      stripeBuffers := Option.some stripeBuffers
      stripeSkipList := Option.some stripeSkipList
      blockDataArray := blockFrozen.2 }

/-- CStoreBeginWrite (cstore_writer.c:80): adopt the existing footer when the
footer fork has one, otherwise start a fresh footer with the caller's
blockRowCount; resume currentFileOffset right after the last existing stripe.
Whether or not a footer exists, the per-column working block data is allocated
with the caller's blockRowCount argument (CreateEmptyBlockDataArray,
cstore_writer.c:162), recorded as allocatedRowCount. -/
def cstoreBeginWrite (α : Type) [Inhabited α] (existingFooter : Option TableFooter)
    (compressionType : CompressionType) (stripeMaxRowCount blockRowCount : Nat) :
    TableWriteState α :=
  let tableFooter :=
    match existingFooter with
    | Option.none => { blockRowCount := blockRowCount, stripeMetadataList := [] }
    | Option.some footer => footer
  let currentFileOffset :=
    match tableFooter.stripeMetadataList.getLast? with
    | Option.none => 0
    | Option.some lastStripe =>
      lastStripe.fileOffset
        + (lastStripe.skipListLength + lastStripe.dataLength + lastStripe.footerLength)
  { tableFooter := tableFooter
    compressionType := compressionType
    stripeMaxRowCount := stripeMaxRowCount
    currentFileOffset := currentFileOffset
    stripeBuffers := Option.none
    stripeSkipList := Option.none
    blockDataArray := fun _ =>
      { existsArray := fun _ => false
        valueBuffer := ([] : List Nat)
        allocatedRowCount := blockRowCount }
    emitted := [] }

/-- Stripe-flushing part of CStoreEndWrite (cstore_writer.c:326-341): flush the
open partial stripe, if any, and append its metadata to the footer. The footer
fork write that follows is modelled by cstoreWriteFooter below. -/
def cstoreEndWrite {α : Type} (env : WriterEnv α) [Inhabited α]
    (writeState : TableWriteState α) : TableWriteState α :=
  match writeState.stripeBuffers with
  | Option.some _ =>
    let flushed := flushStripe env writeState
    { flushed.2 with tableFooter := appendStripeMetadata flushed.2.tableFooter flushed.1 }
  | Option.none => writeState

/-- Folding CStoreWriteRow over a list of rows (each row is its values and
nulls arrays). -/
def runWriteRows {α : Type} (env : WriterEnv α) [Inhabited α]
    (writeState : TableWriteState α) (rows : List ((Nat → α) × (Nat → Bool))) :
    TableWriteState α :=
  rows.foldl (fun ws row => cstoreWriteRow env ws row.1 row.2) writeState

/-- CSTORE_PAGE_DATA_SIZE: payload capacity of one page, BLCKSZ (8192) minus
SizeOfPageHeaderData (24). -/
def cstorePageDataSize : Nat := 8168

/-- CSTORE_POSTSCRIPT_SIZE_MAX: the postscript length must fit in one byte. -/
def cstorePostscriptSizeMax : Nat := 256

/-- Little-endian byte image of an int32 value, as appendBinaryStringInfo
copies the four raw bytes of the integer. -/
def int32LEBytes (n : Nat) : List Nat :=
  [n % 256, n / 256 % 256, n / 65536 % 256, n / 16777216 % 256]

/-- Decoding of a four-byte little-endian int32 image. -/
def decodeInt32LE (bytes : List Nat) : Nat :=
  bytes.getD 0 0 + 256 * bytes.getD 1 0 + 65536 * bytes.getD 2 0
    + 16777216 * bytes.getD 3 0

/-- Failure of CStoreWriteFooter: the Assert at cstore_writer.c:399 that the
serialized postscript is shorter than CSTORE_POSTSCRIPT_SIZE_MAX aborts the
in-flight write when it fires. -/
inductive FooterWriteError where
  | postscriptOverflow
deriving DecidableEq, Repr

/-- One page write performed by CStoreWriteFooter on the footer fork: either a
footer-content page at a given block number, or the header page (block 0). -/
inductive FooterWriteEvent where
  | content (blockNumber : Nat)
  | header
deriving DecidableEq, Repr

/-- Starting-block decision of CStoreWriteFooter (cstore_writer.c:428-459):
block 1 when the footer fork is empty, when the header failed to parse
(DeserializeTableFooterMetadata leaves startingBlock 0), or when the new
footer fits strictly before the current range; otherwise right after the
current range. -/
def chooseNewStartingBlock (originalBlockCount startingBlock blockCount
    actualBlockCount : Nat) : Nat :=
  if originalBlockCount = 0 then 1
  else if startingBlock = 0 then 1
  else if actualBlockCount < startingBlock then 1
  else startingBlock + blockCount

/-- Resolved block numbers of the footer-content page writes
(cstore_writer.c:464-513). A requested block number at or past the snapshot
originalBlockCount becomes P_NEW, which the buffer manager resolves to the
current end of the fork; the second component of the accumulator tracks the
fork size, which starts at originalBlockCount, or at 1 when the fork was empty
and reading the header page at P_NEW has just allocated block 0. -/
def footerContentStep (originalBlockCount newStartingBlock : Nat)
    (acc : List Nat × Nat) (currentBlockNumber : Nat) : List Nat × Nat :=
  if originalBlockCount ≤ currentBlockNumber + newStartingBlock then
    (acc.1 ++ [acc.2], acc.2 + 1)
  else
    (acc.1 ++ [currentBlockNumber + newStartingBlock], acc.2)

def footerContentBlocks (originalBlockCount newStartingBlock actualBlockCount : Nat) :
    List Nat :=
  ((List.range actualBlockCount).foldl (footerContentStep originalBlockCount newStartingBlock)
    ([], if originalBlockCount = 0 then 1 else originalBlockCount)).1

/-- CStoreWriteFooter (cstore_writer.c:364): build the footer byte stream
(int32 length placeholder, serialized footer, serialized postscript, one
postscript-size byte, then the length patched over the placeholder), choose
the new starting block, write the content pages in order, and write the header
page last. The serializers and the parsed header metadata (startingBlock is 0
when DeserializeTableFooterMetadata failed) are opaque inputs. The result is
the ordered page-write events, the footer byte stream, and the chosen starting
block. -/
def cstoreWriteFooter (serializeTableFooter : TableFooter → List Nat)
    (serializePostScript : Nat → List Nat) (tableFooter : TableFooter)
    (originalBlockCount startingBlock blockCount : Nat) :
    Except FooterWriteError (List FooterWriteEvent × List Nat × Nat) :=
  let tableFooterBuffer := serializeTableFooter tableFooter
  let postscriptBuffer := serializePostScript tableFooterBuffer.length
  let wholeFooter := int32LEBytes 0 ++ tableFooterBuffer ++ postscriptBuffer
  if cstorePostscriptSizeMax ≤ postscriptBuffer.length then
    Except.error FooterWriteError.postscriptOverflow
  else
    let postscriptSize := postscriptBuffer.length % 256
    let wholeFooter := wholeFooter ++ [postscriptSize]
    let dataLength := wholeFooter.length
    let actualBlockCount := (dataLength - 1) / cstorePageDataSize + 1
    let newStartingBlock :=
      chooseNewStartingBlock originalBlockCount startingBlock blockCount actualBlockCount
    let stream := int32LEBytes dataLength ++ wholeFooter.drop 4
    let events :=
      (footerContentBlocks originalBlockCount newStartingBlock actualBlockCount).map
        FooterWriteEvent.content ++ [FooterWriteEvent.header]
    Except.ok (events, stream, newStartingBlock)

/-- WriteToFile (cstore_writer.c:1064): append data to the data fork starting
at the active block, page by page. A block number at or past the end of the
fork becomes P_NEW, which allocates and initializes a fresh page at the end;
an existing page receives at most its remaining capacity, possibly zero when
it is already full, in which case the loop advances to the next block. -/
def writeToFileLoop (fork : List (List Nat)) (blockNumber : Nat) (data : List Nat) :
    List (List Nat) :=
  if h0 : data.length = 0 then fork
  else if h1 : fork.length ≤ blockNumber then
    writeToFileLoop (fork ++ [data.take (min cstorePageDataSize data.length)])
      (fork.length + 1) (data.drop (min cstorePageDataSize data.length))
  else
    writeToFileLoop
      (fork.set blockNumber ((fork.getD blockNumber [])
        ++ data.take (min (cstorePageDataSize - (fork.getD blockNumber []).length) data.length)))
      (blockNumber + 1)
      (data.drop (min (cstorePageDataSize - (fork.getD blockNumber []).length) data.length))
termination_by (data.length, fork.length - blockNumber)
decreasing_by
  · apply Prod.Lex.left
    simp only [List.length_drop]
    have hmin : 0 < min cstorePageDataSize data.length := by
      have : 0 < data.length := Nat.pos_of_ne_zero h0
      simp [cstorePageDataSize]
      omega
    omega
  · rcases Nat.eq_zero_or_pos (min (cstorePageDataSize - (fork.getD blockNumber []).length)
      data.length) with hz | hp
    · rw [hz]
      simp only [List.drop_zero, List.length_set]
      apply Prod.Lex.right
      omega
    · apply Prod.Lex.left
      simp only [List.length_drop]
      omega

/-- Total number of payload bytes stored across the pages of a fork. -/
def forkTotalBytes (fork : List (List Nat)) : Nat :=
  (fork.map List.length).sum

/-- Byte size of one stripe on the data fork, as reported by its metadata. -/
def stripeSizeOf (stripeMetadata : StripeMetadata) : Nat :=
  stripeMetadata.skipListLength + stripeMetadata.dataLength + stripeMetadata.footerLength

/-- Adjacency invariant of the footer stripe list: every next stripe starts
exactly where the previous one ends. -/
def offsetsChained (l : List StripeMetadata) : Prop :=
  List.Chain' (fun a b => b.fileOffset = a.fileOffset + stripeSizeOf a) l

/-- Strictly increasing file offsets along the footer stripe list. -/
def offsetsStrictIncreasing (l : List StripeMetadata) : Prop :=
  List.Chain' (fun a b => a.fileOffset < b.fileOffset) l

/-- Projection of a skip node to its min/max summary (hasMinMax, min, max). -/
def minMaxProj {α : Type} (nd : ColumnBlockSkipNode α) : Bool × α × α :=
  (nd.hasMinMax, nd.minimumValue, nd.maximumValue)

/-- Action of UpdateBlockSkipNodeMinMax on the min/max summary alone. -/
def applyMinMax {α : Type} (cmpo : Option (α → α → Int)) (st : Bool × α × α) (v : α) :
    Bool × α × α :=
  match cmpo with
  | Option.none => st
  | Option.some cmp =>
    if st.1 = false then (true, v, v)
    else
      (true,
       (if cmp v st.2.1 < 0 then v else st.2.1),
       (if 0 < cmp v st.2.2 then v else st.2.2))

/-- Laws the writer expects of a btree comparison function: the sign flips
when the arguments swap, and non-positivity is transitive. Any total order
comparator satisfies them. -/
structure IsTotalCompare {α : Type} (cmp : α → α → Int) : Prop where
  flipLt : ∀ a b, cmp a b < 0 ↔ 0 < cmp b a
  transLe : ∀ a b c, cmp a b ≤ 0 → cmp b c ≤ 0 → cmp a c ≤ 0

/-- Standard integer comparator (used to instantiate witnesses). -/
def intCmp (a b : Int) : Int :=
  if a < b then -1 else if b < a then 1 else 0

/-- Number of the first totalRows rows that row partitioning assigns to a
given block: rows n with n / blockRowCount = blockIndex. -/
def rowsAssignedToBlock (blockRowCount totalRows blockIndex : Nat) : Nat :=
  ((List.range totalRows).filter (fun n => n / blockRowCount = blockIndex)).length

/-- Values of column columnIndex among the non-null rows that the partition
assigns to block blockIndex, in row order; the Nat argument is the index of
the first row of the list. -/
def nonNullValuesInBlock {α : Type} (blockRowCount columnIndex blockIndex : Nat) :
    Nat → List ((Nat → α) × (Nat → Bool)) → List α
  | _, [] => []
  | n, row :: rest =>
    (if n / blockRowCount = blockIndex ∧ row.2 columnIndex = false
     then [row.1 columnIndex] else [])
      ++ nonNullValuesInBlock blockRowCount columnIndex blockIndex (n + 1) rest

/-- Skip node of a session state at a (column, block) position (the zero node
when no stripe is open). -/
def skipNodeOf {α : Type} [Inhabited α] (s : TableWriteState α) (c b : Nat) :
    ColumnBlockSkipNode α :=
  match s.stripeSkipList with
  | Option.some ssl => ssl.blockSkipNodeArray c b
  | Option.none => emptyBlockSkipNode α

/-- Row count of the open stripe of a session state (zero when none is open). -/
def stripeRowCountOf {α : Type} (s : TableWriteState α) : Nat :=
  match s.stripeBuffers with
  | Option.some sb => sb.rowCount
  | Option.none => 0

/-- Zero-column environment with constant one-byte serializers; used by the
concrete witnesses. -/
def witnessEnv : WriterEnv Int :=
  { columns := [],
    compressBuffer := fun _ _ => Option.none,
    serializeStripeFooter := fun _ => [0] }

/-- One integer column with the standard comparator; used by the concrete
witnesses. -/
def witnessColumn : ColumnSchema Int :=
  { cmp := Option.some intCmp,
    serializeDatum := fun v => [v.natAbs % 256],
    serializeSkipList := fun nodes => [nodes.length] }

/-- One-column environment over witnessColumn. -/
def witnessEnv1 : WriterEnv Int :=
  { columns := [witnessColumn],
    compressBuffer := fun _ _ => Option.none,
    serializeStripeFooter := fun _ => [0] }

/-- Session that begins over an empty footer fork and writes a list of rows. -/
def freshRun {α : Type} (env : WriterEnv α) [Inhabited α]
    (compressionType : CompressionType) (stripeMaxRowCount blockRowCount : Nat)
    (rows : List ((Nat → α) × (Nat → Bool))) : TableWriteState α :=
  runWriteRows env
    (cstoreBeginWrite α Option.none compressionType stripeMaxRowCount blockRowCount) rows

/-- Concrete open-stripe buffers holding one row; used by witnesses. -/
def witnessSB : StripeBuffers :=
  { columnBuffersArray := fun _ => { blockBuffersArray := fun _ => emptyColumnBlockBuffers },
    rowCount := 1 }

/-- Concrete one-column skip list; used by witnesses. -/
def witnessSSL : StripeSkipList Int := createEmptyStripeSkipList Int 1

/-- Concrete mid-stripe session state (one row already written, block row count
2, stripe maximum 4); used by witnesses. -/
def witnessState : TableWriteState Int :=
  { tableFooter := { blockRowCount := 2, stripeMetadataList := [] },
    compressionType := CompressionType.none,
    stripeMaxRowCount := 4,
    currentFileOffset := 0,
    stripeBuffers := Option.some witnessSB,
    stripeSkipList := Option.some witnessSSL,
    blockDataArray := fun _ =>
      { existsArray := fun _ => false
        valueBuffer := []
        allocatedRowCount := 2 },
    emitted := [] }

/-- Concrete existing footer persisting block row count 2; used by the
concrete witnesses of resumed sessions. -/
def witnessFooter : TableFooter := { blockRowCount := 2, stripeMetadataList := [] }

/-- Concrete open-stripe buffers holding no row yet (the next row lands at
block row index 0); used by the concrete witnesses. -/
def witnessSB0 : StripeBuffers :=
  { columnBuffersArray := fun _ => { blockBuffersArray := fun _ => emptyColumnBlockBuffers },
    rowCount := 0 }

/-- Concrete session state like witnessState but at the first row of a block;
used by the concrete witnesses. -/
def witnessStateB : TableWriteState Int :=
  { witnessState with stripeBuffers := Option.some witnessSB0 }

/-
Theorems. Helper lemmas come first, followed by one theorem per verified
claim (with its witness where the theorem carries hypotheses).
-/

theorem setFn_same {β : Type} (f : Nat → β) (i : Nat) (v : β) : setFn f i v i = v := by
  simp [setFn]

theorem setFn_other {β : Type} (f : Nat → β) (i j : Nat) (v : β) (h : j ≠ i) :
    setFn f i v j = f j := by
  simp [setFn, h]

theorem modifyFn_same {β : Type} (f : Nat → β) (i : Nat) (g : β → β) :
    modifyFn f i g i = g (f i) := by
  simp [modifyFn]

theorem modifyFn_other {β : Type} (f : Nat → β) (i j : Nat) (g : β → β) (h : j ≠ i) :
    modifyFn f i g j = f j := by
  simp [modifyFn, h]

theorem modifyFn2_same {β : Type} (f : Nat → Nat → β) (i j : Nat) (g : β → β) :
    modifyFn2 f i j g i j = g (f i j) := by
  simp [modifyFn2]

theorem modifyFn2_other {β : Type} (f : Nat → Nat → β) (i j i2 j2 : Nat) (g : β → β)
    (h : ¬(i2 = i ∧ j2 = j)) : modifyFn2 f i j g i2 j2 = f i2 j2 := by
  simp only [modifyFn2, if_neg h]

theorem serializeBoolArray_length (boolArray : Nat → Bool) (n : Nat) :
    (serializeBoolArray boolArray n).length = (n + 7) / 8 := by
  simp [serializeBoolArray]

theorem forkTotalBytes_append (fork : List (List Nat)) (p : List Nat) :
    forkTotalBytes (fork ++ [p]) = forkTotalBytes fork + p.length := by
  simp [forkTotalBytes]

theorem forkTotalBytes_set (fork : List (List Nat)) (i : Nat) (p : List Nat)
    (h : i < fork.length) :
    forkTotalBytes (fork.set i p) + (fork.getD i []).length
      = forkTotalBytes fork + p.length := by
  induction fork generalizing i with
  | nil => simp at h
  | cons head tail ih =>
    cases i with
    | zero => simp [forkTotalBytes]; omega
    | succ n =>
      have hn : n < tail.length := by simpa using h
      have htail := ih n hn
      simp only [List.set_cons_succ, List.getD_cons_succ, forkTotalBytes, List.map_cons,
        List.sum_cons] at htail ⊢
      omega

/-- CLAIM C9: every call to WriteToFile terminates (writeToFileLoop is a total
function; its termination measure pairs the remaining input bytes with the
remaining already-allocated pages, and a freshly initialized page has positive
remaining capacity, so the loop makes progress even when the starting active
block is already full) and on return has copied all dataLength input bytes
into pages: the total page payload grows by exactly the length of the input. -/
theorem writeToFile_writes_all_bytes (fork : List (List Nat)) (blockNumber : Nat)
    (data : List Nat) :
    forkTotalBytes (writeToFileLoop fork blockNumber data)
      = forkTotalBytes fork + data.length := by
  induction fork, blockNumber, data using writeToFileLoop.induct with
  | case1 fork blockNumber data h0 =>
    rw [writeToFileLoop]
    simp [h0]
  | case2 fork blockNumber data h0 h1 ih =>
    rw [writeToFileLoop, dif_neg h0, dif_pos h1]
    rw [ih, forkTotalBytes_append]
    have hc : min cstorePageDataSize data.length ≤ data.length := Nat.min_le_right _ _
    simp only [List.length_take, List.length_drop]
    omega
  | case3 fork blockNumber data h0 h1 ih =>
    rw [writeToFileLoop, dif_neg h0, dif_neg h1]
    rw [ih]
    have hb : blockNumber < fork.length := Nat.lt_of_not_le h1
    have hset := forkTotalBytes_set fork blockNumber
      ((fork.getD blockNumber []) ++ data.take (min (cstorePageDataSize
        - (fork.getD blockNumber []).length) data.length)) hb
    have hc : min (cstorePageDataSize - (fork.getD blockNumber []).length) data.length
        ≤ data.length := Nat.min_le_right _ _
    simp only [List.length_append, List.length_take, List.length_drop] at hset ⊢
    omega

theorem footerContentBlocks_fold (originalBlockCount newStartingBlock : Nat)
    (h1 : 1 ≤ newStartingBlock)
    (h2 : newStartingBlock ≤ (if originalBlockCount = 0 then 1 else originalBlockCount))
    (n : Nat) :
    (List.range n).foldl (footerContentStep originalBlockCount newStartingBlock)
        ([], if originalBlockCount = 0 then 1 else originalBlockCount)
      = ((List.range n).map (fun i => i + newStartingBlock),
         max (if originalBlockCount = 0 then 1 else originalBlockCount)
           (n + newStartingBlock)) := by
  induction n with
  | zero =>
    simp only [List.range_zero, List.foldl_nil, List.map_nil]
    rw [Prod.mk.injEq]
    constructor
    · rfl
    · by_cases ho : originalBlockCount = 0 <;> simp [ho] at h2 ⊢ <;> omega
  | succ n ih =>
    rw [List.range_succ, List.foldl_append, ih, List.foldl_cons, List.foldl_nil,
      List.map_append]
    unfold footerContentStep
    by_cases hle : originalBlockCount ≤ n + newStartingBlock
    · rw [if_pos hle]
      have hF : (if originalBlockCount = 0 then 1 else originalBlockCount)
          ≤ n + newStartingBlock := by
        by_cases ho : originalBlockCount = 0 <;> simp [ho] <;> omega
      rw [Prod.mk.injEq]
      constructor
      · simp only [List.map_cons, List.map_nil]
        rw [Nat.max_eq_right hF]
      · rw [Nat.max_eq_right hF, Nat.max_eq_right (by omega)]
        show n + newStartingBlock + 1 = n + 1 + newStartingBlock
        omega
    · rw [if_neg hle]
      have ho : originalBlockCount ≠ 0 := by omega
      rw [Prod.mk.injEq]
      constructor
      · simp
      · simp only [ho, if_neg, ite_false] at *
        omega

theorem footerContentBlocks_eq (originalBlockCount newStartingBlock actualBlockCount : Nat)
    (h1 : 1 ≤ newStartingBlock)
    (h2 : newStartingBlock ≤ (if originalBlockCount = 0 then 1 else originalBlockCount)) :
    footerContentBlocks originalBlockCount newStartingBlock actualBlockCount
      = (List.range actualBlockCount).map (fun i => i + newStartingBlock) := by
  unfold footerContentBlocks
  rw [footerContentBlocks_fold originalBlockCount newStartingBlock h1 h2 actualBlockCount]

theorem chooseNewStartingBlock_pos (o s b a : Nat) :
    1 ≤ chooseNewStartingBlock o s b a := by
  unfold chooseNewStartingBlock
  split_ifs with h1 h2 h3 <;> omega

theorem chooseNewStartingBlock_le (o s b a : Nat) (hr : 0 < s → s + b ≤ o) :
    chooseNewStartingBlock o s b a ≤ (if o = 0 then 1 else o) := by
  unfold chooseNewStartingBlock
  split_ifs with h1 h2 h3
  · omega
  · omega
  · omega
  · have := hr (Nat.pos_of_ne_zero h2)
    omega

theorem footerContentBlocks_mem (o s b a bn : Nat) (hr : 0 < s → s + b ≤ o)
    (hmem : bn ∈ footerContentBlocks o (chooseNewStartingBlock o s b a) a) :
    1 ≤ bn ∧ (0 < s → bn < s ∨ s + b ≤ bn) := by
  rw [footerContentBlocks_eq o _ a (chooseNewStartingBlock_pos o s b a)
    (chooseNewStartingBlock_le o s b a hr)] at hmem
  simp only [List.mem_map, List.mem_range] at hmem
  obtain ⟨i, hi, rfl⟩ := hmem
  refine ⟨by have := chooseNewStartingBlock_pos o s b a; omega, ?_⟩
  intro hs
  have ho : o ≠ 0 := by have := hr hs; omega
  unfold chooseNewStartingBlock
  split_ifs with h1 h2 h3
  · omega
  · omega
  · left; omega
  · right; omega

theorem int32LEBytes_length (n : Nat) : (int32LEBytes n).length = 4 := rfl

theorem decodeInt32LE_int32LEBytes (n : Nat) :
    decodeInt32LE (int32LEBytes n) = n % 4294967296 := by
  simp only [decodeInt32LE, int32LEBytes, List.getD_cons_zero, List.getD_cons_succ]
  omega

/-- CLAIM C8: if the serialized postscript is at least CSTORE_POSTSCRIPT_SIZE_MAX
(256) bytes long, CStoreWriteFooter aborts the in-flight write with a
serialization-overflow error (the Assert at cstore_writer.c:399) instead of
writing a footer stream whose postscript-size byte would be truncated. -/
theorem writeFooter_overflow_aborts (serializeTableFooter : TableFooter → List Nat)
    (serializePostScript : Nat → List Nat) (tableFooter : TableFooter)
    (originalBlockCount startingBlock blockCount : Nat)
    (h : cstorePostscriptSizeMax
      ≤ (serializePostScript (serializeTableFooter tableFooter).length).length) :
    cstoreWriteFooter serializeTableFooter serializePostScript tableFooter
        originalBlockCount startingBlock blockCount
      = Except.error FooterWriteError.postscriptOverflow := by
  simp [cstoreWriteFooter, h]

/-- Witness for C8 at a concrete 256-byte postscript. -/
theorem writeFooter_overflow_aborts_witness :
    cstoreWriteFooter (fun _ => [7]) (fun _ => List.replicate 256 3)
        { blockRowCount := 10, stripeMetadataList := [] } 0 0 0
      = Except.error FooterWriteError.postscriptOverflow :=
  writeFooter_overflow_aborts (fun _ => [7]) (fun _ => List.replicate 256 3)
    { blockRowCount := 10, stripeMetadataList := [] } 0 0 0
    (by rw [List.length_replicate]; exact Nat.le_refl 256)

theorem int32LEBytes_append_drop (m : Nat) (l : List Nat) :
    (int32LEBytes m ++ l).drop 4 = l := by
  simp [int32LEBytes]

theorem int32LEBytes_append_take (m : Nat) (l : List Nat) :
    (int32LEBytes m ++ l).take 4 = int32LEBytes m := by
  simp [int32LEBytes]

/-- CLAIM C6: in every successful CStoreWriteFooter, the footer byte stream is
exactly int32 length, then the serialized table footer, then the serialized
postscript, then one byte holding the postscript length; the leading int32
(patched after layout) equals the length of the entire four-part stream
including itself, and the final byte equals the postscript length. -/
theorem writeFooter_stream_format (serializeTableFooter : TableFooter → List Nat)
    (serializePostScript : Nat → List Nat) (tableFooter : TableFooter)
    (originalBlockCount startingBlock blockCount : Nat)
    (events : List FooterWriteEvent) (stream : List Nat) (newStartingBlock : Nat)
    (hok : cstoreWriteFooter serializeTableFooter serializePostScript tableFooter
        originalBlockCount startingBlock blockCount
      = Except.ok (events, stream, newStartingBlock)) :
    stream = int32LEBytes stream.length
        ++ serializeTableFooter tableFooter
        ++ serializePostScript (serializeTableFooter tableFooter).length
        ++ [(serializePostScript (serializeTableFooter tableFooter).length).length] ∧
    stream.length = 4 + (serializeTableFooter tableFooter).length
        + (serializePostScript (serializeTableFooter tableFooter).length).length + 1 ∧
    (stream.length < 4294967296 → decodeInt32LE (stream.take 4) = stream.length) ∧
    stream.getLast? = Option.some
      (serializePostScript (serializeTableFooter tableFooter).length).length := by
  set F := serializeTableFooter tableFooter with hF
  set P := serializePostScript F.length with hP
  by_cases hc : cstorePostscriptSizeMax ≤ P.length
  · exfalso
    simp [cstoreWriteFooter, hc] at hok
  · simp only [cstoreWriteFooter] at hok
    rw [if_neg hc] at hok
    simp only [Except.ok.injEq, Prod.mk.injEq] at hok
    obtain ⟨hev, hst, hns⟩ := hok
    rw [← hF] at hst
    rw [← hP] at hst
    have hlt : P.length < 256 := by
      have := Nat.lt_of_not_le hc
      simpa [cstorePostscriptSizeMax] using this
    rw [Nat.mod_eq_of_lt hlt] at hst
    subst hst
    have hdrop : ((int32LEBytes 0 ++ F ++ P) ++ [P.length]).drop 4
        = F ++ P ++ [P.length] := by
      rw [List.append_assoc, List.append_assoc, List.append_assoc,
        int32LEBytes_append_drop]
    have hD : ((int32LEBytes 0 ++ F ++ P) ++ [P.length]).length
        = 4 + F.length + P.length + 1 := by
      simp only [List.length_append, int32LEBytes_length, List.length_cons, List.length_nil]
    rw [hdrop]
    have hslen : (int32LEBytes (((int32LEBytes 0 ++ F ++ P) ++ [P.length]).length)
        ++ (F ++ P ++ [P.length])).length
        = ((int32LEBytes 0 ++ F ++ P) ++ [P.length]).length := by
      simp only [List.length_append, int32LEBytes_length, List.length_cons, List.length_nil]
      omega
    refine ⟨?_, ?_, ?_, ?_⟩
    · rw [hslen]
      simp [List.append_assoc]
    · rw [hslen, hD]
    · intro hsmall
      rw [hslen, hD] at hsmall
      rw [int32LEBytes_append_take, decodeInt32LE_int32LEBytes, hslen, hD]
      omega
    · rw [show int32LEBytes (((int32LEBytes 0 ++ F ++ P) ++ [P.length]).length)
          ++ (F ++ P ++ [P.length])
          = (int32LEBytes (((int32LEBytes 0 ++ F ++ P) ++ [P.length]).length)
            ++ F ++ P) ++ [P.length] by simp [List.append_assoc]]
      exact List.getLast?_concat _

theorem foldl_append_self (l : List (List Nat)) (init : List Nat) :
    l.foldl (fun acc x => acc ++ x) init = init ++ l.flatten := by
  induction l generalizing init with
  | nil => simp
  | cons a t ih => simp [ih, List.append_assoc]

theorem foldl_emit_eq_flatten {β : Type} (f : β → List Nat) (l : List β) (init : List Nat) :
    l.foldl (fun acc x => acc ++ f x) init = init ++ (l.map f).flatten := by
  induction l generalizing init with
  | nil => simp
  | cons a t ih => simp [ih, List.append_assoc]

theorem flushDataFold (stripeBuffers : StripeBuffers) (blockCount : Nat)
    (l : List Nat) (init : List Nat) :
    l.foldl (fun acc columnIndex =>
      (List.range blockCount).foldl
        (fun acc2 blockIndex => acc2 ++ blockValueBytes stripeBuffers columnIndex blockIndex)
        ((List.range blockCount).foldl
          (fun acc2 blockIndex => acc2 ++ blockExistsBytes stripeBuffers columnIndex blockIndex)
          acc))
      init
    = init ++ (l.map (fun columnIndex =>
        ((List.range blockCount).map (blockExistsBytes stripeBuffers columnIndex)).flatten
        ++ ((List.range blockCount).map (blockValueBytes stripeBuffers columnIndex)).flatten)).flatten := by
  induction l generalizing init with
  | nil => simp
  | cons c t ih =>
    rw [List.foldl_cons, ih, foldl_emit_eq_flatten, foldl_emit_eq_flatten]
    simp [List.append_assoc]

/-- CLAIM C3: the byte sequence a stripe flush appends to the data fork is
exactly the serialized skip list buffers of columns 0 through C-1 in column
order, then for each column in order all of its exists buffers in block order
followed by all of its value buffers in block order, then the serialized
stripe footer, with no other bytes interleaved. -/
theorem flushStripe_emitted_layout {α : Type} (env : WriterEnv α) [Inhabited α]
    (writeState : TableWriteState α) :
    (flushStripe env writeState).2.emitted
      = writeState.emitted
        ++ (createSkipListBufferArray env (flushStripeSkipList env writeState)).flatten
        ++ ((List.range env.columns.length).map (fun columnIndex =>
            ((List.range (flushStripeSkipList env writeState).blockCount).map
              (blockExistsBytes (flushStripeSerialized env writeState).1 columnIndex)).flatten
            ++ ((List.range (flushStripeSkipList env writeState).blockCount).map
              (blockValueBytes (flushStripeSerialized env writeState).1 columnIndex)).flatten)).flatten
        ++ env.serializeStripeFooter (createStripeFooter (flushStripeSkipList env writeState)
            (createSkipListBufferArray env (flushStripeSkipList env writeState))) := by
  simp only [flushStripe]
  rw [foldl_append_self, flushDataFold]

/-- Witness for C6: concrete serializers producing footer bytes [1, 2, 3] and
postscript [9]; the resulting stream is [9, 0, 0, 0, 1, 2, 3, 9, 1]. -/
theorem writeFooter_stream_format_witness :
    ([9, 0, 0, 0, 1, 2, 3, 9, 1] : List Nat)
        = int32LEBytes ([9, 0, 0, 0, 1, 2, 3, 9, 1] : List Nat).length
          ++ [1, 2, 3] ++ [9] ++ [([9] : List Nat).length] ∧
    ([9, 0, 0, 0, 1, 2, 3, 9, 1] : List Nat).length
        = 4 + ([1, 2, 3] : List Nat).length + ([9] : List Nat).length + 1 ∧
    (([9, 0, 0, 0, 1, 2, 3, 9, 1] : List Nat).length < 4294967296 →
      decodeInt32LE (([9, 0, 0, 0, 1, 2, 3, 9, 1] : List Nat).take 4)
        = ([9, 0, 0, 0, 1, 2, 3, 9, 1] : List Nat).length) ∧
    ([9, 0, 0, 0, 1, 2, 3, 9, 1] : List Nat).getLast? = Option.some ([9] : List Nat).length :=
  writeFooter_stream_format (fun _ => [1, 2, 3]) (fun _ => [9])
    { blockRowCount := 10, stripeMetadataList := [] } 0 0 0
    [FooterWriteEvent.content 1, FooterWriteEvent.header] [9, 0, 0, 0, 1, 2, 3, 9, 1] 1 rfl

/-- CLAIM C4: in every successful CStoreWriteFooter execution, all page writes
before the header-page rewrite are content-page writes landing outside both
block 0 and the previously-valid footer range, and the header-page rewrite is
strictly the last write; hence the previous footer bytes remain intact until
the header swap. The hypothesis states that the previously-valid range (when
startingBlock is nonzero) lies inside the footer fork, which holds for any
header written by this code. -/
theorem writeFooter_header_swap_last (serializeTableFooter : TableFooter → List Nat)
    (serializePostScript : Nat → List Nat) (tableFooter : TableFooter)
    (originalBlockCount startingBlock blockCount : Nat)
    (events : List FooterWriteEvent) (stream : List Nat) (newStartingBlock : Nat)
    (hrange : 0 < startingBlock → startingBlock + blockCount ≤ originalBlockCount)
    (hok : cstoreWriteFooter serializeTableFooter serializePostScript tableFooter
        originalBlockCount startingBlock blockCount
      = Except.ok (events, stream, newStartingBlock)) :
    events.getLast? = Option.some FooterWriteEvent.header ∧
    (∀ e ∈ events.dropLast, ∃ bn, e = FooterWriteEvent.content bn) ∧
    (∀ bn, FooterWriteEvent.content bn ∈ events →
      1 ≤ bn ∧ (0 < startingBlock →
        bn < startingBlock ∨ startingBlock + blockCount ≤ bn)) := by
  by_cases hc : cstorePostscriptSizeMax
      ≤ (serializePostScript (serializeTableFooter tableFooter).length).length
  · exfalso
    simp [cstoreWriteFooter, hc] at hok
  · simp only [cstoreWriteFooter] at hok
    rw [if_neg hc] at hok
    simp only [Except.ok.injEq, Prod.mk.injEq] at hok
    obtain ⟨hev, hst, hns⟩ := hok
    subst hev
    refine ⟨List.getLast?_concat _, ?_, ?_⟩
    · intro e he
      rw [List.dropLast_concat] at he
      simp only [List.mem_map] at he
      obtain ⟨bn, hbn, rfl⟩ := he
      exact ⟨bn, rfl⟩
    · intro bn hmem
      simp only [List.mem_append, List.mem_map, List.mem_singleton] at hmem
      rcases hmem with ⟨x, hx, heq⟩ | habs
      · injection heq with hxb
        subst hxb
        exact footerContentBlocks_mem originalBlockCount startingBlock blockCount _ x
          hrange hx
      · cases habs

/-- Witness for C4: resumed footer fork of 4 blocks whose valid footer range is
blocks 1-2; the new one-page footer lands at block 3 and the header write is
last. -/
theorem writeFooter_header_swap_last_witness :
    ([FooterWriteEvent.content 3, FooterWriteEvent.header] : List FooterWriteEvent).getLast?
        = Option.some FooterWriteEvent.header ∧
    (∀ e ∈ ([FooterWriteEvent.content 3, FooterWriteEvent.header] :
        List FooterWriteEvent).dropLast, ∃ bn, e = FooterWriteEvent.content bn) ∧
    (∀ bn, FooterWriteEvent.content bn
        ∈ ([FooterWriteEvent.content 3, FooterWriteEvent.header] : List FooterWriteEvent) →
      1 ≤ bn ∧ (0 < 1 → bn < 1 ∨ 1 + 2 ≤ bn)) :=
  writeFooter_header_swap_last (fun _ => [1, 2, 3]) (fun _ => [9])
    { blockRowCount := 10, stripeMetadataList := [] } 4 1 2
    [FooterWriteEvent.content 3, FooterWriteEvent.header] [9, 0, 0, 0, 1, 2, 3, 9, 1] 3
    (fun _ => by omega) rfl

/-- CLAIM C5: CStoreWriteFooter chooses the new starting block per the
four-case rule (empty fork, unparseable or zero header, fits strictly before
the current range, otherwise append after it), the block it returns is exactly
this choice applied to the actual block count of the stream, and whenever a
currently-valid footer range exists the chosen range of actualBlockCount
blocks is disjoint from it. -/
theorem writeFooter_starting_block_rule (o s b a : Nat) :
    (o = 0 → chooseNewStartingBlock o s b a = 1) ∧
    (o ≠ 0 → s = 0 → chooseNewStartingBlock o s b a = 1) ∧
    (o ≠ 0 → s ≠ 0 → a < s → chooseNewStartingBlock o s b a = 1) ∧
    (o ≠ 0 → s ≠ 0 → s ≤ a → chooseNewStartingBlock o s b a = s + b) ∧
    (o ≠ 0 → 0 < s → ∀ bn, chooseNewStartingBlock o s b a ≤ bn →
      bn < chooseNewStartingBlock o s b a + a → ¬(s ≤ bn ∧ bn < s + b)) ∧
    (∀ serializeTableFooter serializePostScript tableFooter events stream ns,
      cstoreWriteFooter serializeTableFooter serializePostScript tableFooter o s b
          = Except.ok (events, stream, ns) →
      ns = chooseNewStartingBlock o s b ((stream.length - 1) / cstorePageDataSize + 1)) := by
  refine ⟨?_, ?_, ?_, ?_, ?_, ?_⟩
  · intro ho
    simp [chooseNewStartingBlock, ho]
  · intro ho hs
    simp [chooseNewStartingBlock, ho, hs]
  · intro ho hs ha
    simp [chooseNewStartingBlock, ho, hs, ha]
  · intro ho hs ha
    have hna : ¬(a < s) := by omega
    simp [chooseNewStartingBlock, ho, hs, hna]
  · intro ho hs bn h1 h2
    unfold chooseNewStartingBlock at h1 h2
    split_ifs at h1 h2 with hA hB hC
    · omega
    · omega
    · omega
    · omega
  · intro stf sps tf events stream ns hok
    by_cases hc : cstorePostscriptSizeMax ≤ (sps (stf tf).length).length
    · exfalso
      simp [cstoreWriteFooter, hc] at hok
    · simp only [cstoreWriteFooter] at hok
      rw [if_neg hc] at hok
      simp only [Except.ok.injEq, Prod.mk.injEq] at hok
      obtain ⟨hev, hst, hns⟩ := hok
      have hslen : stream.length
          = ((int32LEBytes 0 ++ stf tf ++ sps (stf tf).length
            ++ [(sps (stf tf).length).length % 256]).length) := by
        rw [← hst]
        simp only [List.length_append, int32LEBytes_length, List.length_cons,
          List.length_nil, List.length_drop]
        omega
      rw [← hns, hslen]

/-- Witness for C5: exercises all four selection cases and the disjointness
conclusion at concrete block counts, and the returned-value conjunct at
concrete serializers. -/
theorem writeFooter_starting_block_rule_witness :
    chooseNewStartingBlock 0 5 2 1 = 1 ∧
    chooseNewStartingBlock 7 0 2 1 = 1 ∧
    chooseNewStartingBlock 7 4 2 3 = 1 ∧
    chooseNewStartingBlock 7 4 2 4 = 4 + 2 ∧
    ¬(4 ≤ 3 ∧ 3 < 4 + 2) ∧
    (1 : Nat) = chooseNewStartingBlock 0 0 0
      ((([9, 0, 0, 0, 1, 2, 3, 9, 1] : List Nat).length - 1) / cstorePageDataSize + 1) :=
  ⟨(writeFooter_starting_block_rule 0 5 2 1).1 rfl,
   (writeFooter_starting_block_rule 7 0 2 1).2.1 (by omega) rfl,
   (writeFooter_starting_block_rule 7 4 2 3).2.2.1 (by omega) (by omega) (by omega),
   (writeFooter_starting_block_rule 7 4 2 4).2.2.2.1 (by omega) (by omega) (by omega),
   (writeFooter_starting_block_rule 7 4 2 3).2.2.2.2.1 (by omega) (by omega) 3
     (by decide) (by decide),
   (writeFooter_starting_block_rule 0 0 0 1).2.2.2.2.2 (fun _ => [1, 2, 3]) (fun _ => [9])
     { blockRowCount := 10, stripeMetadataList := [] }
     [FooterWriteEvent.content 1, FooterWriteEvent.header] [9, 0, 0, 0, 1, 2, 3, 9, 1] 1 rfl⟩

theorem flushStripe_tableFooter {α : Type} (env : WriterEnv α) [Inhabited α]
    (s : TableWriteState α) : (flushStripe env s).2.tableFooter = s.tableFooter := rfl

theorem flushStripe_fileOffset {α : Type} (env : WriterEnv α) [Inhabited α]
    (s : TableWriteState α) : (flushStripe env s).1.fileOffset = s.currentFileOffset := rfl

theorem flushStripe_advance {α : Type} (env : WriterEnv α) [Inhabited α]
    (s : TableWriteState α) :
    (flushStripe env s).2.currentFileOffset
      = s.currentFileOffset + stripeSizeOf (flushStripe env s).1 := by
  have h : (flushStripe env s).2.currentFileOffset
      = s.currentFileOffset + (flushStripe env s).1.skipListLength
        + (flushStripe env s).1.dataLength + (flushStripe env s).1.footerLength := rfl
  rw [h]
  unfold stripeSizeOf
  omega

theorem flushStripe_footerLength {α : Type} (env : WriterEnv α) [Inhabited α]
    (s : TableWriteState α) :
    (flushStripe env s).1.footerLength
      = (env.serializeStripeFooter (createStripeFooter (flushStripeSkipList env s)
          (createSkipListBufferArray env (flushStripeSkipList env s)))).length := rfl

theorem flushStripe_size_pos {α : Type} (env : WriterEnv α) [Inhabited α]
    (s : TableWriteState α)
    (hser : ∀ sf, 1 ≤ (env.serializeStripeFooter sf).length) :
    1 ≤ stripeSizeOf (flushStripe env s).1 := by
  have h := flushStripe_footerLength env s
  have h2 := hser (createStripeFooter (flushStripeSkipList env s)
    (createSkipListBufferArray env (flushStripeSkipList env s)))
  unfold stripeSizeOf
  omega

theorem writeRow_tableFooter_blockRowCount {α : Type} (env : WriterEnv α) [Inhabited α]
    (s : TableWriteState α) (columnValues : Nat → α) (columnNulls : Nat → Bool) :
    (cstoreWriteRow env s columnValues columnNulls).tableFooter.blockRowCount
      = s.tableFooter.blockRowCount := by
  unfold cstoreWriteRow
  split <;> simp only [] <;> split <;> split <;> rfl

theorem runWriteRows_tableFooter_blockRowCount {α : Type} (env : WriterEnv α) [Inhabited α]
    (s : TableWriteState α) (rows : List ((Nat → α) × (Nat → Bool))) :
    (runWriteRows env s rows).tableFooter.blockRowCount = s.tableFooter.blockRowCount := by
  induction rows generalizing s with
  | nil => rfl
  | cons r t ih =>
    simp only [runWriteRows, List.foldl_cons]
    have := ih (cstoreWriteRow env s r.1 r.2)
    simp only [runWriteRows] at this
    rw [this, writeRow_tableFooter_blockRowCount]

theorem chained_append (l : List StripeMetadata) (m : StripeMetadata)
    (hc : offsetsChained l)
    (hlink : ∀ a, l.getLast? = Option.some a → m.fileOffset = a.fileOffset + stripeSizeOf a) :
    offsetsChained (l ++ [m]) := by
  unfold offsetsChained at *
  rw [List.chain'_append]
  refine ⟨hc, List.chain'_singleton _, ?_⟩
  intro x hx y hy
  simp only [List.head?_cons, Option.mem_def, Option.some.injEq] at hy
  subst hy
  exact hlink x hx

theorem chained_strictIncreasing : ∀ l : List StripeMetadata,
    offsetsChained l → (∀ m ∈ l, 1 ≤ stripeSizeOf m) → offsetsStrictIncreasing l := by
  intro l
  induction l with
  | nil =>
    intro _ _
    simp [offsetsStrictIncreasing]
  | cons a t ih =>
    intro hc hpos
    unfold offsetsChained at hc
    unfold offsetsStrictIncreasing
    rw [List.chain'_cons'] at hc ⊢
    obtain ⟨hab, hrest⟩ := hc
    refine ⟨?_, ih hrest (fun m hm => hpos m (List.mem_cons_of_mem a hm))⟩
    intro h hh
    have h1 := hab h hh
    have h2 := hpos a (List.mem_cons_self a t)
    omega

/-- Offset bookkeeping invariant of a write session: the footer list is
chained, every recorded stripe has positive size, and currentFileOffset sits
exactly at the end of the last recorded stripe. -/
def footerOffsetsInv {α : Type} (s : TableWriteState α) : Prop :=
  offsetsChained s.tableFooter.stripeMetadataList ∧
  (∀ m ∈ s.tableFooter.stripeMetadataList, 1 ≤ stripeSizeOf m) ∧
  (∀ a, s.tableFooter.stripeMetadataList.getLast? = Option.some a →
    s.currentFileOffset = a.fileOffset + stripeSizeOf a)

theorem beginWrite_footerOffsetsInv {α : Type} [Inhabited α]
    (existingFooter : Option TableFooter) (compressionType : CompressionType)
    (stripeMaxRowCount blockRowCount : Nat)
    (hf : ∀ f, existingFooter = Option.some f → offsetsChained f.stripeMetadataList
      ∧ ∀ m ∈ f.stripeMetadataList, 1 ≤ stripeSizeOf m) :
    footerOffsetsInv (cstoreBeginWrite α existingFooter compressionType
      stripeMaxRowCount blockRowCount) := by
  cases existingFooter with
  | none =>
    refine ⟨?_, ?_, ?_⟩
    · simp [cstoreBeginWrite, offsetsChained]
    · intro m hm
      simp [cstoreBeginWrite] at hm
    · intro a ha
      simp [cstoreBeginWrite] at ha
  | some f =>
    obtain ⟨hc, hpos⟩ := hf f rfl
    refine ⟨hc, hpos, ?_⟩
    intro a ha
    show (match f.stripeMetadataList.getLast? with
      | Option.none => 0
      | Option.some lastStripe => lastStripe.fileOffset + (lastStripe.skipListLength
          + lastStripe.dataLength + lastStripe.footerLength))
      = a.fileOffset + stripeSizeOf a
    rw [show f.stripeMetadataList.getLast? = Option.some a from ha]
    simp only [stripeSizeOf]

theorem preservesInv_flushAppend {α : Type} (env : WriterEnv α) [Inhabited α]
    (s inner : TableWriteState α)
    (hser : ∀ sf, 1 ≤ (env.serializeStripeFooter sf).length)
    (hfoot : inner.tableFooter = s.tableFooter)
    (hoff : inner.currentFileOffset = s.currentFileOffset)
    (hinv : footerOffsetsInv s) :
    footerOffsetsInv
      { (flushStripe env inner).2 with
        tableFooter := appendStripeMetadata (flushStripe env inner).2.tableFooter
          (flushStripe env inner).1 } := by
  obtain ⟨hc, hpos, hlink⟩ := hinv
  have hm0 : (flushStripe env inner).1.fileOffset = s.currentFileOffset := by
    rw [flushStripe_fileOffset, hoff]
  refine ⟨?_, ?_, ?_⟩
  · show offsetsChained ((appendStripeMetadata (flushStripe env inner).2.tableFooter
      (flushStripe env inner).1).stripeMetadataList)
    unfold appendStripeMetadata
    simp only [flushStripe_tableFooter, hfoot]
    apply chained_append _ _ hc
    intro a ha
    rw [hm0, hlink a ha]
  · intro m hm
    unfold appendStripeMetadata at hm
    simp only [flushStripe_tableFooter, hfoot] at hm
    rw [List.mem_append] at hm
    rcases hm with hm | hm
    · exact hpos m hm
    · simp only [List.mem_singleton] at hm
      subst hm
      exact flushStripe_size_pos env inner hser
  · intro a ha
    unfold appendStripeMetadata at ha
    simp only [flushStripe_tableFooter, hfoot] at ha
    rw [List.getLast?_concat] at ha
    rw [Option.some.injEq] at ha
    subst ha
    show (flushStripe env inner).2.currentFileOffset
      = (flushStripe env inner).1.fileOffset + stripeSizeOf (flushStripe env inner).1
    rw [flushStripe_advance, flushStripe_fileOffset]

theorem writeRow_footerOffsetsInv {α : Type} (env : WriterEnv α) [Inhabited α]
    (s : TableWriteState α) (columnValues : Nat → α) (columnNulls : Nat → Bool)
    (hser : ∀ sf, 1 ≤ (env.serializeStripeFooter sf).length)
    (hinv : footerOffsetsInv s) :
    footerOffsetsInv (cstoreWriteRow env s columnValues columnNulls) := by
  unfold cstoreWriteRow
  split <;> simp only [] <;> split <;> split <;>
    first
      | exact hinv
      | exact preservesInv_flushAppend env s _ hser rfl rfl hinv

theorem runWriteRows_footerOffsetsInv {α : Type} (env : WriterEnv α) [Inhabited α]
    (s : TableWriteState α) (rows : List ((Nat → α) × (Nat → Bool)))
    (hser : ∀ sf, 1 ≤ (env.serializeStripeFooter sf).length)
    (hinv : footerOffsetsInv s) :
    footerOffsetsInv (runWriteRows env s rows) := by
  induction rows generalizing s with
  | nil => exact hinv
  | cons r t ih =>
    simp only [runWriteRows, List.foldl_cons]
    have step := writeRow_footerOffsetsInv env s r.1 r.2 hser hinv
    have := ih (cstoreWriteRow env s r.1 r.2) step
    simpa only [runWriteRows] using this

theorem endWrite_footerOffsetsInv {α : Type} (env : WriterEnv α) [Inhabited α]
    (s : TableWriteState α)
    (hser : ∀ sf, 1 ≤ (env.serializeStripeFooter sf).length)
    (hinv : footerOffsetsInv s) :
    footerOffsetsInv (cstoreEndWrite env s) := by
  unfold cstoreEndWrite
  split
  · exact preservesInv_flushAppend env s s hser rfl rfl hinv
  · exact hinv

/-- CLAIM C1: across any session, fresh or resumed via CStoreBeginWrite over
an existing chained footer, the footer's stripe file offsets are strictly
increasing and every adjacent pair satisfies the offset recurrence
file_offset[n+1] = file_offset[n] + skip_list_length[n] + data_length[n] +
footer_length[n]; equivalently, FlushStripe returns metadata whose fileOffset
is the pre-flush currentFileOffset and advances currentFileOffset by exactly
the sum of the three lengths it reports. The opaque stripe footer serializer
is assumed to emit at least one byte per stripe footer. -/
theorem footer_offsets_chained_and_increasing {α : Type} (env : WriterEnv α) [Inhabited α]
    (existingFooter : Option TableFooter) (compressionType : CompressionType)
    (stripeMaxRowCount blockRowCount : Nat) (rows : List ((Nat → α) × (Nat → Bool)))
    (hf : ∀ f, existingFooter = Option.some f → offsetsChained f.stripeMetadataList
      ∧ ∀ m ∈ f.stripeMetadataList, 1 ≤ stripeSizeOf m)
    (hser : ∀ sf, 1 ≤ (env.serializeStripeFooter sf).length) :
    (offsetsChained (cstoreEndWrite env (runWriteRows env
        (cstoreBeginWrite α existingFooter compressionType stripeMaxRowCount blockRowCount)
        rows)).tableFooter.stripeMetadataList ∧
     offsetsStrictIncreasing (cstoreEndWrite env (runWriteRows env
        (cstoreBeginWrite α existingFooter compressionType stripeMaxRowCount blockRowCount)
        rows)).tableFooter.stripeMetadataList) ∧
    (∀ s : TableWriteState α,
      (flushStripe env s).1.fileOffset = s.currentFileOffset ∧
      (flushStripe env s).2.currentFileOffset
        = s.currentFileOffset + stripeSizeOf (flushStripe env s).1) := by
  have hrun : footerOffsetsInv (cstoreEndWrite env (runWriteRows env
      (cstoreBeginWrite α existingFooter compressionType stripeMaxRowCount blockRowCount)
      rows)) :=
    endWrite_footerOffsetsInv env _ hser
      (runWriteRows_footerOffsetsInv env _ rows hser
        (beginWrite_footerOffsetsInv existingFooter compressionType
          stripeMaxRowCount blockRowCount hf))
  obtain ⟨hc, hpos, _⟩ := hrun
  exact ⟨⟨hc, chained_strictIncreasing _ hc hpos⟩,
    fun s => ⟨flushStripe_fileOffset env s, flushStripe_advance env s⟩⟩

/-- Witness for C1 at the zero-column environment, a fresh footer, and an
empty row list. -/
theorem footer_offsets_chained_and_increasing_witness :
    (offsetsChained (cstoreEndWrite witnessEnv (runWriteRows witnessEnv
        (cstoreBeginWrite Int Option.none CompressionType.none 2 1)
        [])).tableFooter.stripeMetadataList ∧
     offsetsStrictIncreasing (cstoreEndWrite witnessEnv (runWriteRows witnessEnv
        (cstoreBeginWrite Int Option.none CompressionType.none 2 1)
        [])).tableFooter.stripeMetadataList) ∧
    (∀ s : TableWriteState Int,
      (flushStripe witnessEnv s).1.fileOffset = s.currentFileOffset ∧
      (flushStripe witnessEnv s).2.currentFileOffset
        = s.currentFileOffset + stripeSizeOf (flushStripe witnessEnv s).1) :=
  footer_offsets_chained_and_increasing witnessEnv Option.none CompressionType.none 2 1 []
    (fun f h => Option.noConfusion h) (fun _ => Nat.le_refl 1)

theorem writeRowStep_fold_node {α : Type} (env : WriterEnv α) [Inhabited α]
    (columnValues : Nat → α) (columnNulls : Nat → Bool) (blockIndex blockRowIndex : Nat)
    (ssl : StripeSkipList α) (bda : Nat → ColumnBlockData) (n : Nat) (c b : Nat) :
    (((List.range n).foldl (writeRowStep env columnValues columnNulls blockIndex blockRowIndex)
        (ssl, bda)).1).blockSkipNodeArray c b
      = if c < n ∧ b = blockIndex then
          writeRowSkipNode (env.columns.getD c default) (columnValues c) (columnNulls c)
            (ssl.blockSkipNodeArray c b)
        else ssl.blockSkipNodeArray c b := by
  induction n with
  | zero => simp
  | succ n ih =>
    rw [List.range_succ, List.foldl_append, List.foldl_cons, List.foldl_nil]
    show (modifyFn2 _ n blockIndex _ c b) = _
    by_cases hcb : c = n ∧ b = blockIndex
    · obtain ⟨hc, hb⟩ := hcb
      subst hc
      subst hb
      rw [modifyFn2_same, ih]
      simp
    · rw [modifyFn2_other _ _ _ _ _ _ hcb, ih]
      by_cases hcn : c < n ∧ b = blockIndex
      · rw [if_pos hcn, if_pos ⟨Nat.lt_succ_of_lt hcn.1, hcn.2⟩]
      · rw [if_neg hcn, if_neg]
        intro ⟨h1, h2⟩
        rcases Nat.lt_succ_iff_lt_or_eq.mp h1 with h | h
        · exact hcn ⟨h, h2⟩
        · exact hcb ⟨h, h2⟩

theorem writeRowStep_fold_data {α : Type} (env : WriterEnv α) [Inhabited α]
    (columnValues : Nat → α) (columnNulls : Nat → Bool) (blockIndex blockRowIndex : Nat)
    (ssl : StripeSkipList α) (bda : Nat → ColumnBlockData) (n : Nat) (c : Nat) :
    ((List.range n).foldl (writeRowStep env columnValues columnNulls blockIndex blockRowIndex)
        (ssl, bda)).2 c
      = if c < n then
          writeRowColumnData (env.columns.getD c default) (columnValues c) (columnNulls c)
            blockRowIndex (bda c)
        else bda c := by
  induction n with
  | zero => simp
  | succ n ih =>
    rw [List.range_succ, List.foldl_append, List.foldl_cons, List.foldl_nil]
    show modifyFn _ n _ c = _
    by_cases hcn : c = n
    · subst hcn
      rw [modifyFn_same, ih]
      simp
    · rw [modifyFn_other _ _ _ _ hcn, ih]
      by_cases hlt : c < n
      · rw [if_pos hlt, if_pos (Nat.lt_succ_of_lt hlt)]
      · rw [if_neg hlt, if_neg]
        intro h
        rcases Nat.lt_succ_iff_lt_or_eq.mp h with h2 | h2
        · exact hlt h2
        · exact hcn h2

theorem writeRowStep_fold_meta {α : Type} (env : WriterEnv α) [Inhabited α]
    (columnValues : Nat → α) (columnNulls : Nat → Bool) (blockIndex blockRowIndex : Nat)
    (ssl : StripeSkipList α) (bda : Nat → ColumnBlockData) (n : Nat) :
    (((List.range n).foldl (writeRowStep env columnValues columnNulls blockIndex blockRowIndex)
        (ssl, bda)).1).columnCount = ssl.columnCount ∧
    (((List.range n).foldl (writeRowStep env columnValues columnNulls blockIndex blockRowIndex)
        (ssl, bda)).1).blockCount = ssl.blockCount := by
  induction n with
  | zero => exact ⟨rfl, rfl⟩
  | succ n ih =>
    rw [List.range_succ, List.foldl_append, List.foldl_cons, List.foldl_nil]
    exact ih

theorem minMaxProj_updateBlockSkipNodeMinMax {α : Type} (nd : ColumnBlockSkipNode α)
    (v : α) (cmpo : Option (α → α → Int)) :
    minMaxProj (updateBlockSkipNodeMinMax nd v cmpo)
      = applyMinMax cmpo (minMaxProj nd) v := by
  cases cmpo with
  | none => rfl
  | some cmp =>
    show minMaxProj (updateBlockSkipNodeMinMax nd v (Option.some cmp))
      = applyMinMax (Option.some cmp) (minMaxProj nd) v
    unfold updateBlockSkipNodeMinMax applyMinMax
    by_cases h : nd.hasMinMax = false
    · simp [h, minMaxProj]
    · simp [h, minMaxProj]

theorem minMaxProj_writeRowSkipNode {α : Type} (schema : ColumnSchema α) (v : α)
    (isNull : Bool) (nd : ColumnBlockSkipNode α) :
    minMaxProj (writeRowSkipNode schema v isNull nd)
      = if isNull then minMaxProj nd else applyMinMax schema.cmp (minMaxProj nd) v := by
  cases isNull with
  | true => rfl
  | false =>
    show minMaxProj { updateBlockSkipNodeMinMax nd v schema.cmp with
      rowCount := (updateBlockSkipNodeMinMax nd v schema.cmp).rowCount + 1 } = _
    rw [if_neg (by simp)]
    rw [← minMaxProj_updateBlockSkipNodeMinMax]
    rfl

theorem writeRowSkipNode_rowCount {α : Type} (schema : ColumnSchema α) (v : α)
    (isNull : Bool) (nd : ColumnBlockSkipNode α) :
    (writeRowSkipNode schema v isNull nd).rowCount = nd.rowCount + 1 := by
  cases isNull with
  | true => rfl
  | false =>
    show (updateBlockSkipNodeMinMax nd v schema.cmp).rowCount + 1 = nd.rowCount + 1
    unfold updateBlockSkipNodeMinMax
    cases schema.cmp with
    | none => rfl
    | some cmp =>
      by_cases h : nd.hasMinMax = false <;> simp [h]

theorem serializeBlockData_rowCount {α : Type} (env : WriterEnv α)
    (compressionType : CompressionType) (stripeBuffers : StripeBuffers)
    (blockDataArray : Nat → ColumnBlockData) (blockIndex rowCount : Nat) :
    (serializeBlockData env compressionType stripeBuffers blockDataArray
      blockIndex rowCount).1.rowCount = stripeBuffers.rowCount := by
  unfold serializeBlockData
  have h1 : ∀ (l : List Nat) (sb : StripeBuffers),
      (l.foldl (fun sb columnIndex => sb.modifyBlock columnIndex blockIndex (fun bb =>
        { bb with existsBuffer :=
            Option.some (serializeBoolArray (blockDataArray columnIndex).existsArray rowCount) }))
        sb).rowCount = sb.rowCount := by
    intro l
    induction l with
    | nil => intro sb; rfl
    | cons x t ih =>
      intro sb
      rw [List.foldl_cons, ih]
      rfl
  have h2 : ∀ (l : List Nat) (acc : StripeBuffers × (Nat → ColumnBlockData)),
      ((l.foldl (fun (acc : StripeBuffers × (Nat → ColumnBlockData)) columnIndex =>
        (acc.1.modifyBlock columnIndex blockIndex (fun bb =>
           { bb with
             valueBuffer := Option.some (match env.compressBuffer (acc.2 columnIndex).valueBuffer
                 compressionType with
               | Option.some compressed => compressed
               | Option.none => (acc.2 columnIndex).valueBuffer)
             valueCompressionType := match env.compressBuffer (acc.2 columnIndex).valueBuffer
                 compressionType with
               | Option.some _ => CompressionType.pgLz
               | Option.none => CompressionType.none }),
         modifyFn acc.2 columnIndex (fun bd => { bd with valueBuffer := [] })))
        acc).1).rowCount = acc.1.rowCount := by
    intro l
    induction l with
    | nil => intro acc; rfl
    | cons x t ih =>
      intro acc
      rw [List.foldl_cons, ih]
      rfl
  rw [h2, h1]

theorem writeRow_stripeMaxRowCount {α : Type} (env : WriterEnv α) [Inhabited α]
    (s : TableWriteState α) (columnValues : Nat → α) (columnNulls : Nat → Bool) :
    (cstoreWriteRow env s columnValues columnNulls).stripeMaxRowCount
      = s.stripeMaxRowCount := by
  unfold cstoreWriteRow
  split <;> simp only [] <;> split <;> split <;> rfl

theorem blockFrozen_rowCount {α : Type} (env : WriterEnv α)
    (compressionType : CompressionType) (sb : StripeBuffers)
    (bda : Nat → ColumnBlockData) (bi bri blockRowCount : Nat) :
    ((if bri = blockRowCount - 1 then
        serializeBlockData env compressionType sb bda bi blockRowCount
      else (sb, bda)).1).rowCount = sb.rowCount := by
  split
  · rw [serializeBlockData_rowCount]
  · rfl

theorem cstoreWriteRow_effect {α : Type} (env : WriterEnv α) [Inhabited α]
    (s : TableWriteState α) (columnValues : Nat → α) (columnNulls : Nat → Bool)
    (sb : StripeBuffers) (ssl : StripeSkipList α)
    (hsb : s.stripeBuffers = Option.some sb) (hssl : s.stripeSkipList = Option.some ssl)
    (hnoflush : sb.rowCount + 1 < s.stripeMaxRowCount) :
    (∀ c b, c < env.columns.length →
      skipNodeOf (cstoreWriteRow env s columnValues columnNulls) c b
        = if b = sb.rowCount / s.tableFooter.blockRowCount then
            writeRowSkipNode (env.columns.getD c default) (columnValues c) (columnNulls c)
              (ssl.blockSkipNodeArray c b)
          else ssl.blockSkipNodeArray c b) ∧
    (sb.rowCount % s.tableFooter.blockRowCount ≠ s.tableFooter.blockRowCount - 1 →
      ∀ c, c < env.columns.length →
      (cstoreWriteRow env s columnValues columnNulls).blockDataArray c
        = writeRowColumnData (env.columns.getD c default) (columnValues c) (columnNulls c)
            (sb.rowCount % s.tableFooter.blockRowCount) (s.blockDataArray c)) ∧
    stripeRowCountOf (cstoreWriteRow env s columnValues columnNulls) = sb.rowCount + 1 ∧
    (cstoreWriteRow env s columnValues columnNulls).stripeBuffers.isSome = true ∧
    (cstoreWriteRow env s columnValues columnNulls).stripeSkipList.isSome = true := by
  refine ⟨?_, ?_, ?_, ?_, ?_⟩
  · intro c b hc
    simp only [cstoreWriteRow, hsb, hssl]
    rw [blockFrozen_rowCount]
    rw [if_neg (by omega)]
    show (((List.range env.columns.length).foldl
        (writeRowStep env columnValues columnNulls
          (sb.rowCount / s.tableFooter.blockRowCount)
          (sb.rowCount % s.tableFooter.blockRowCount))
        (ssl, s.blockDataArray)).1).blockSkipNodeArray c b = _
    rw [writeRowStep_fold_node]
    by_cases hb : b = sb.rowCount / s.tableFooter.blockRowCount
    · rw [if_pos ⟨hc, hb⟩, if_pos hb]
    · rw [if_neg (fun h => hb h.2), if_neg hb]
  · intro hfr c hc
    simp only [cstoreWriteRow, hsb, hssl]
    rw [blockFrozen_rowCount]
    rw [if_neg (by omega)]
    show (if sb.rowCount % s.tableFooter.blockRowCount = s.tableFooter.blockRowCount - 1 then
        serializeBlockData env s.compressionType sb
          (((List.range env.columns.length).foldl
            (writeRowStep env columnValues columnNulls
              (sb.rowCount / s.tableFooter.blockRowCount)
              (sb.rowCount % s.tableFooter.blockRowCount))
            (ssl, s.blockDataArray)).2)
          (sb.rowCount / s.tableFooter.blockRowCount) s.tableFooter.blockRowCount
      else (sb, (((List.range env.columns.length).foldl
            (writeRowStep env columnValues columnNulls
              (sb.rowCount / s.tableFooter.blockRowCount)
              (sb.rowCount % s.tableFooter.blockRowCount))
            (ssl, s.blockDataArray)).2))).2 c = _
    rw [if_neg hfr]
    show ((List.range env.columns.length).foldl
        (writeRowStep env columnValues columnNulls
          (sb.rowCount / s.tableFooter.blockRowCount)
          (sb.rowCount % s.tableFooter.blockRowCount))
        (ssl, s.blockDataArray)).2 c = _
    rw [writeRowStep_fold_data, if_pos hc]
  · simp only [cstoreWriteRow, hsb, hssl]
    rw [blockFrozen_rowCount]
    rw [if_neg (by omega)]
    rfl
  · simp only [cstoreWriteRow, hsb, hssl]
    rw [blockFrozen_rowCount]
    rw [if_neg (by omega)]
    rfl
  · simp only [cstoreWriteRow, hsb, hssl]
    rw [blockFrozen_rowCount]
    rw [if_neg (by omega)]
    rfl

theorem createEmptyStripeBuffers_rowCount : createEmptyStripeBuffers.rowCount = 0 := rfl

theorem createEmptyStripeSkipList_node {α : Type} [Inhabited α] (n c b : Nat) :
    (createEmptyStripeSkipList α n).blockSkipNodeArray c b = emptyBlockSkipNode α := rfl

theorem cstoreWriteRow_effect_fresh {α : Type} (env : WriterEnv α) [Inhabited α]
    (s : TableWriteState α) (columnValues : Nat → α) (columnNulls : Nat → Bool)
    (hsb : s.stripeBuffers = Option.none) (hssl : s.stripeSkipList = Option.none)
    (hnoflush : 1 < s.stripeMaxRowCount) :
    (∀ c b, c < env.columns.length →
      skipNodeOf (cstoreWriteRow env s columnValues columnNulls) c b
        = if b = 0 then
            writeRowSkipNode (env.columns.getD c default) (columnValues c) (columnNulls c)
              (emptyBlockSkipNode α)
          else emptyBlockSkipNode α) ∧
    stripeRowCountOf (cstoreWriteRow env s columnValues columnNulls) = 1 ∧
    (cstoreWriteRow env s columnValues columnNulls).stripeBuffers.isSome = true ∧
    (cstoreWriteRow env s columnValues columnNulls).stripeSkipList.isSome = true := by
  refine ⟨?_, ?_, ?_, ?_⟩
  · intro c b hc
    simp only [cstoreWriteRow, hsb, hssl, createEmptyStripeBuffers_rowCount,
      Nat.zero_div, Nat.zero_mod]
    rw [blockFrozen_rowCount]
    simp only [createEmptyStripeBuffers_rowCount]
    rw [if_neg (by omega)]
    show (((List.range env.columns.length).foldl
        (writeRowStep env columnValues columnNulls 0 0)
        (createEmptyStripeSkipList α env.columns.length,
          fun columnIndex =>
            { s.blockDataArray columnIndex with
              valueBuffer := ([] : List Nat) })).1).blockSkipNodeArray c b = _
    rw [writeRowStep_fold_node]
    simp only [createEmptyStripeSkipList_node]
    by_cases hb : b = 0
    · rw [if_pos ⟨hc, hb⟩, if_pos hb]
    · rw [if_neg (fun h => hb h.2), if_neg hb]
  · simp only [cstoreWriteRow, hsb, hssl, createEmptyStripeBuffers_rowCount,
      Nat.zero_div, Nat.zero_mod]
    rw [blockFrozen_rowCount]
    simp only [createEmptyStripeBuffers_rowCount]
    rw [if_neg (by omega)]
    rfl
  · simp only [cstoreWriteRow, hsb, hssl, createEmptyStripeBuffers_rowCount,
      Nat.zero_div, Nat.zero_mod]
    rw [blockFrozen_rowCount]
    simp only [createEmptyStripeBuffers_rowCount]
    rw [if_neg (by omega)]
    rfl
  · simp only [cstoreWriteRow, hsb, hssl, createEmptyStripeBuffers_rowCount,
      Nat.zero_div, Nat.zero_mod]
    rw [blockFrozen_rowCount]
    simp only [createEmptyStripeBuffers_rowCount]
    rw [if_neg (by omega)]
    rfl

/-- CLAIM C10 (corrected): when CStoreBeginWrite finds an existing footer it
adopts the footer's persisted blockRowCount, which survives the whole run of
rows, CStoreWriteRow partitions rows into blocks by the persisted value (the
skip node it updates sits at block rowCount / persisted, the working data at
block row rowCount % persisted), and FlushStripe sizes the last partial block
by the persisted value; but the caller's blockRowCount argument is not
ignored: it still sizes the per-column working block data arrays
(CreateEmptyBlockDataArray, cstore_writer.c:162), so a caller value smaller
than the persisted one leaves arrays the block row positions overrun. -/
theorem beginWrite_persisted_blockRowCount_but_argument_sizes_arrays
    {α : Type} [Inhabited α] (env : WriterEnv α) (footer : TableFooter)
    (compressionType : CompressionType) (stripeMaxRowCount blockRowCountArg : Nat)
    (rows : List ((Nat → α) × (Nat → Bool))) :
    (cstoreBeginWrite α (Option.some footer) compressionType stripeMaxRowCount
        blockRowCountArg).tableFooter.blockRowCount = footer.blockRowCount ∧
    (runWriteRows env (cstoreBeginWrite α (Option.some footer) compressionType
        stripeMaxRowCount blockRowCountArg) rows).tableFooter.blockRowCount
      = footer.blockRowCount ∧
    (∀ c, ((cstoreBeginWrite α (Option.some footer) compressionType stripeMaxRowCount
        blockRowCountArg).blockDataArray c).allocatedRowCount = blockRowCountArg) ∧
    (∀ (s : TableWriteState α) (columnValues : Nat → α) (columnNulls : Nat → Bool)
        (sb : StripeBuffers) (ssl : StripeSkipList α),
      s.tableFooter.blockRowCount = footer.blockRowCount →
      s.stripeBuffers = Option.some sb →
      s.stripeSkipList = Option.some ssl →
      sb.rowCount + 1 < s.stripeMaxRowCount →
      sb.rowCount % footer.blockRowCount ≠ footer.blockRowCount - 1 →
      ∀ c, c < env.columns.length →
        skipNodeOf (cstoreWriteRow env s columnValues columnNulls) c
            (sb.rowCount / footer.blockRowCount)
          = writeRowSkipNode (env.columns.getD c default) (columnValues c) (columnNulls c)
              (ssl.blockSkipNodeArray c (sb.rowCount / footer.blockRowCount)) ∧
        (cstoreWriteRow env s columnValues columnNulls).blockDataArray c
          = writeRowColumnData (env.columns.getD c default) (columnValues c) (columnNulls c)
              (sb.rowCount % footer.blockRowCount) (s.blockDataArray c)) ∧
    (∀ (s : TableWriteState α) (sb : StripeBuffers),
      s.tableFooter.blockRowCount = footer.blockRowCount →
      s.stripeBuffers = Option.some sb →
      flushStripeSerialized env s
        = if 0 < sb.rowCount % footer.blockRowCount then
            serializeBlockData env s.compressionType sb s.blockDataArray
              (sb.rowCount / footer.blockRowCount) (sb.rowCount % footer.blockRowCount)
          else (sb, s.blockDataArray)) := by
  refine ⟨rfl, ?_, fun c => rfl, ?_, ?_⟩
  · rw [runWriteRows_tableFooter_blockRowCount]
    show footer.blockRowCount = footer.blockRowCount
    rfl
  · intro s columnValues columnNulls sb ssl hfoot hsb hssl hnoflush hnofreeze c hc
    rw [← hfoot] at hnofreeze ⊢
    have heff := cstoreWriteRow_effect env s columnValues columnNulls sb ssl hsb hssl hnoflush
    refine ⟨?_, heff.2.1 hnofreeze c hc⟩
    rw [heff.1 c (sb.rowCount / s.tableFooter.blockRowCount) hc, if_pos rfl]
  · intro s sb hfoot hsb
    rw [← hfoot]
    simp only [flushStripeSerialized, hsb, Option.getD_some]

/-- CLAIM C10, counterexample to the claim as stated: over an existing footer
persisting block row count 2, the blockRowCount argument is not ignored —
the sessions begun with arguments 1 and 2 differ, because the argument sizes
the per-column working block data (CreateEmptyBlockDataArray,
cstore_writer.c:162): the first session allocates for 1 row per block while
the second allocates for 2; and since partitioning uses the persisted count 2,
after two non-null rows the first session has set the exists flag at block
row index 1, which is at or past its allocation of 1 (an out-of-bounds write
in the C program). -/
theorem beginWrite_blockRowCount_argument_not_ignored :
    cstoreBeginWrite Int (Option.some witnessFooter) CompressionType.none 4 1
      ≠ cstoreBeginWrite Int (Option.some witnessFooter) CompressionType.none 4 2 ∧
    ((cstoreBeginWrite Int (Option.some witnessFooter) CompressionType.none 4
        1).blockDataArray 0).allocatedRowCount = 1 ∧
    ((cstoreBeginWrite Int (Option.some witnessFooter) CompressionType.none 4
        2).blockDataArray 0).allocatedRowCount = 2 ∧
    ((runWriteRows witnessEnv1
        (cstoreBeginWrite Int (Option.some witnessFooter) CompressionType.none 4 1)
        [(fun _ => 5, fun _ => false), (fun _ => 6, fun _ => false)]).blockDataArray
        0).existsArray 1 = true ∧
    ((runWriteRows witnessEnv1
        (cstoreBeginWrite Int (Option.some witnessFooter) CompressionType.none 4 1)
        [(fun _ => 5, fun _ => false), (fun _ => 6, fun _ => false)]).blockDataArray
        0).allocatedRowCount ≤ 1 := by
  refine ⟨?_, rfl, rfl, by decide, by decide⟩
  intro h
  have h2 := congrArg (fun s => (s.blockDataArray 0).allocatedRowCount) h
  exact absurd h2 (by decide)

/-- Witness for the corrected C10 at concrete inputs: a session resumed over
witnessFooter (persisted block row count 2) with blockRowCount argument 1
adopts 2 yet allocates its working arrays for 1 row, and at the concrete
states witnessStateB (next row lands at block row 0) and witnessState (one
row in the stripe) the partitioning and flush-sizing conjuncts apply with
every hypothesis discharged. -/
theorem beginWrite_persisted_blockRowCount_but_argument_sizes_arrays_witness :
    (cstoreBeginWrite Int (Option.some witnessFooter) CompressionType.none 4
        1).tableFooter.blockRowCount = 2 ∧
    ((cstoreBeginWrite Int (Option.some witnessFooter) CompressionType.none 4
        1).blockDataArray 0).allocatedRowCount = 1 ∧
    (skipNodeOf (cstoreWriteRow witnessEnv1 witnessStateB (fun _ => (5 : Int))
          (fun _ => false)) 0 0
        = writeRowSkipNode witnessColumn 5 false (witnessSSL.blockSkipNodeArray 0 0) ∧
      (cstoreWriteRow witnessEnv1 witnessStateB (fun _ => (5 : Int))
          (fun _ => false)).blockDataArray 0
        = writeRowColumnData witnessColumn 5 false 0 (witnessStateB.blockDataArray 0)) ∧
    flushStripeSerialized witnessEnv1 witnessState
      = serializeBlockData witnessEnv1 CompressionType.none witnessSB
          witnessState.blockDataArray 0 1 := by
  have h := beginWrite_persisted_blockRowCount_but_argument_sizes_arrays
    witnessEnv1 witnessFooter CompressionType.none 4 1 []
  refine ⟨h.1, h.2.2.1 0, ?_, ?_⟩
  · exact h.2.2.2.1 witnessStateB (fun _ => 5) (fun _ => false) witnessSB0 witnessSSL
      rfl rfl rfl (by decide) (by decide) 0 (by decide)
  · have h5 := h.2.2.2.2 witnessState witnessSB rfl rfl
    rw [h5]
    rfl

theorem rowsAssignedToBlock_succ (blockRowCount k b : Nat) :
    rowsAssignedToBlock blockRowCount (k + 1) b
      = rowsAssignedToBlock blockRowCount k b + (if k / blockRowCount = b then 1 else 0) := by
  unfold rowsAssignedToBlock
  rw [List.range_succ, List.filter_append, List.length_append, List.filter_singleton]
  by_cases h : k / blockRowCount = b
  · simp [h]
  · simp [h]

theorem nonNullValuesInBlock_append {α : Type} (blockRowCount c b : Nat) :
    ∀ (k : Nat) (l : List ((Nat → α) × (Nat → Bool))) (r : (Nat → α) × (Nat → Bool)),
    nonNullValuesInBlock blockRowCount c b k (l ++ [r])
      = nonNullValuesInBlock blockRowCount c b k l
        ++ (if (k + l.length) / blockRowCount = b ∧ r.2 c = false then [r.1 c] else []) := by
  intro k l
  induction l generalizing k with
  | nil =>
    intro r
    simp [nonNullValuesInBlock]
  | cons x t ih =>
    intro r
    simp only [List.cons_append, nonNullValuesInBlock, List.append_eq]
    rw [ih]
    have hidx : k + 1 + t.length = k + (x :: t).length := by
      rw [List.length_cons]
      omega
    rw [hidx, List.append_assoc]

theorem skipNodeOf_some {α : Type} [Inhabited α] (s : TableWriteState α)
    (ssl : StripeSkipList α) (h : s.stripeSkipList = Option.some ssl) (c b : Nat) :
    skipNodeOf s c b = ssl.blockSkipNodeArray c b := by
  simp [skipNodeOf, h]

theorem stripeRowCountOf_some {α : Type} (s : TableWriteState α) (sb : StripeBuffers)
    (h : s.stripeBuffers = Option.some sb) : stripeRowCountOf s = sb.rowCount := by
  simp [stripeRowCountOf, h]

theorem freshRun_append {α : Type} (env : WriterEnv α) [Inhabited α]
    (compressionType : CompressionType) (stripeMaxRowCount blockRowCount : Nat)
    (l : List ((Nat → α) × (Nat → Bool))) (r : (Nat → α) × (Nat → Bool)) :
    freshRun env compressionType stripeMaxRowCount blockRowCount (l ++ [r])
      = cstoreWriteRow env (freshRun env compressionType stripeMaxRowCount blockRowCount l)
          r.1 r.2 := by
  unfold freshRun runWriteRows
  rw [List.foldl_append, List.foldl_cons, List.foldl_nil]

theorem freshRun_node_spec {α : Type} (env : WriterEnv α) [Inhabited α]
    (compressionType : CompressionType) (stripeMaxRowCount blockRowCount : Nat) :
    ∀ rows : List ((Nat → α) × (Nat → Bool)), rows.length < stripeMaxRowCount →
      stripeRowCountOf (freshRun env compressionType stripeMaxRowCount blockRowCount rows)
          = rows.length ∧
      (freshRun env compressionType stripeMaxRowCount blockRowCount
          rows).stripeMaxRowCount = stripeMaxRowCount ∧
      (freshRun env compressionType stripeMaxRowCount blockRowCount
          rows).tableFooter.blockRowCount = blockRowCount ∧
      (rows ≠ [] →
        (freshRun env compressionType stripeMaxRowCount blockRowCount
          rows).stripeBuffers.isSome = true ∧
        (freshRun env compressionType stripeMaxRowCount blockRowCount
          rows).stripeSkipList.isSome = true) ∧
      (∀ c b, c < env.columns.length →
        minMaxProj (skipNodeOf (freshRun env compressionType stripeMaxRowCount blockRowCount
            rows) c b)
          = (nonNullValuesInBlock blockRowCount c b 0 rows).foldl
              (applyMinMax (env.columns.getD c default).cmp)
              (false, (default : α), (default : α)) ∧
        (skipNodeOf (freshRun env compressionType stripeMaxRowCount blockRowCount
            rows) c b).rowCount
          = rowsAssignedToBlock blockRowCount rows.length b) := by
  intro rows
  induction rows using List.reverseRecOn with
  | nil =>
    intro hS
    refine ⟨rfl, rfl, rfl, fun h => absurd rfl h, ?_⟩
    intro c b hc
    exact ⟨rfl, rfl⟩
  | append_singleton l r ih =>
    intro hS
    rw [List.length_append, List.length_singleton] at hS
    obtain ⟨ihRC, ihSM, ihBR, ihSome, ihNode⟩ := ih (by omega)
    rw [freshRun_append]
    rcases List.eq_nil_or_concat l with hl | _
    · subst hl
      have heff := cstoreWriteRow_effect_fresh env
        (freshRun env compressionType stripeMaxRowCount blockRowCount []) r.1 r.2
        rfl rfl (by rw [ihSM]; simpa using hS)
      obtain ⟨hnode, hrc, hsome1, hsome2⟩ := heff
      refine ⟨by rw [hrc]; simp, ?_, ?_, fun _ => ⟨hsome1, hsome2⟩, ?_⟩
      · rw [writeRow_stripeMaxRowCount, ihSM]
      · rw [writeRow_tableFooter_blockRowCount, ihBR]
      · intro c b hc
        rw [hnode c b hc]
        constructor
        · show _ = (nonNullValuesInBlock blockRowCount c b 0 ([] ++ [r])).foldl _ _
          rw [nonNullValuesInBlock_append]
          simp only [nonNullValuesInBlock, List.length_nil, Nat.add_zero, Nat.zero_div,
            List.nil_append]
          by_cases hb : b = 0
          · rw [if_pos hb]
            rw [minMaxProj_writeRowSkipNode]
            cases hnull : r.2 c with
            | true =>
              rw [if_pos rfl]
              rw [if_neg (by simp [hnull, hb])]
              rfl
            | false =>
              rw [if_neg (by simp)]
              rw [if_pos ⟨hb.symm, rfl⟩]
              rfl
          · rw [if_neg hb]
            rw [if_neg (by intro h; exact hb h.1.symm)]
            rfl
        · show _ = rowsAssignedToBlock blockRowCount ([] ++ [r]).length b
          simp only [List.nil_append, List.length_singleton]
          rw [show (1 : Nat) = 0 + 1 from rfl, rowsAssignedToBlock_succ]
          by_cases hb : b = 0
          · rw [if_pos hb, writeRowSkipNode_rowCount]
            rw [if_pos (by rw [Nat.zero_div]; exact hb.symm)]
            rfl
          · rw [if_neg hb]
            rw [if_neg (by rw [Nat.zero_div]; intro h; exact hb h.symm)]
            rfl
    · rename_i hcat
      have hlne : l ≠ [] := by
        obtain ⟨L, a, hl⟩ := hcat
        rw [hl]
        simp
      obtain ⟨hsome1, hsome2⟩ := ihSome hlne
      obtain ⟨sb, hsb⟩ := Option.isSome_iff_exists.mp hsome1
      obtain ⟨ssl, hssl⟩ := Option.isSome_iff_exists.mp hsome2
      have hsbrc : sb.rowCount = l.length := by
        rw [stripeRowCountOf_some _ sb hsb] at ihRC
        exact ihRC
      have heff := cstoreWriteRow_effect env
        (freshRun env compressionType stripeMaxRowCount blockRowCount l) r.1 r.2 sb ssl
        hsb hssl (by rw [ihSM, hsbrc]; omega)
      obtain ⟨hnode, _, hrc, hsome1b, hsome2b⟩ := heff
      refine ⟨by rw [hrc, hsbrc]; simp, ?_, ?_, fun _ => ⟨hsome1b, hsome2b⟩, ?_⟩
      · rw [writeRow_stripeMaxRowCount, ihSM]
      · rw [writeRow_tableFooter_blockRowCount, ihBR]
      · intro c b hc
        have hnodecb := hnode c b hc
        rw [ihBR, hsbrc] at hnodecb
        rw [hnodecb]
        have hold := ihNode c b hc
        have holdnode : ssl.blockSkipNodeArray c b
            = skipNodeOf (freshRun env compressionType stripeMaxRowCount blockRowCount l)
              c b := (skipNodeOf_some _ ssl hssl c b).symm
        constructor
        · rw [nonNullValuesInBlock_append, Nat.zero_add]
          by_cases hb : b = l.length / blockRowCount
          · rw [if_pos hb]
            rw [minMaxProj_writeRowSkipNode]
            cases hnull : r.2 c with
            | true =>
              rw [if_pos rfl]
              rw [if_neg (by simp [hnull])]
              rw [List.append_nil, holdnode]
              exact hold.1
            | false =>
              rw [if_neg (by simp)]
              rw [if_pos ⟨hb.symm, rfl⟩]
              rw [List.foldl_append, List.foldl_cons, List.foldl_nil]
              rw [holdnode, hold.1]
          · rw [if_neg hb]
            rw [if_neg (by intro h; exact hb h.1.symm)]
            rw [List.append_nil, holdnode]
            exact hold.1
        · rw [List.length_append, List.length_singleton, rowsAssignedToBlock_succ]
          by_cases hb : b = l.length / blockRowCount
          · rw [if_pos hb, writeRowSkipNode_rowCount, holdnode, hold.2]
            rw [if_pos hb.symm]
          · rw [if_neg hb, holdnode, hold.2]
            rw [if_neg (fun h => hb h.symm)]
            rfl

theorem IsTotalCompare.cmp_self {α : Type} {cmp : α → α → Int}
    (h : IsTotalCompare cmp) (a : α) : cmp a a = 0 := by
  have h1 := h.flipLt a a
  by_cases hlt : cmp a a < 0
  · have := h1.mp hlt
    omega
  · by_cases hgt : 0 < cmp a a
    · have := h1.mpr hgt
      omega
    · omega

theorem IsTotalCompare.le_flip {α : Type} {cmp : α → α → Int}
    (h : IsTotalCompare cmp) (a b : α) : cmp a b ≤ 0 ↔ 0 ≤ cmp b a := by
  constructor
  · intro hab
    by_contra hcon
    push_neg at hcon
    have := (h.flipLt b a).mp hcon
    omega
  · intro hba
    by_contra hcon
    push_neg at hcon
    have := (h.flipLt b a).mpr hcon
    omega

theorem applyMinMax_some_false {α : Type} (cmp : α → α → Int) (st : Bool × α × α)
    (v : α) (h : st.1 = false) :
    applyMinMax (Option.some cmp) st v = (true, v, v) := by
  show (if st.1 = false then (true, v, v) else _) = _
  rw [if_pos h]

theorem applyMinMax_some_true {α : Type} (cmp : α → α → Int) (st : Bool × α × α)
    (v : α) (h : st.1 = true) :
    applyMinMax (Option.some cmp) st v
      = (true, (if cmp v st.2.1 < 0 then v else st.2.1),
          (if 0 < cmp v st.2.2 then v else st.2.2)) := by
  show (if st.1 = false then (true, v, v) else _) = _
  rw [if_neg (by rw [h]; intro hcon; cases hcon)]

theorem applyMinMax_fst_some {α : Type} (cmp : α → α → Int) (st : Bool × α × α) (v : α) :
    (applyMinMax (Option.some cmp) st v).1 = true := by
  by_cases h : st.1 = false
  · rw [applyMinMax_some_false cmp st v h]
  · rw [applyMinMax_some_true cmp st v (by revert h; cases st.1 <;> simp)]

theorem applyMinMax_fold_spec {α : Type} [Inhabited α] (cmp : α → α → Int)
    (h : IsTotalCompare cmp) :
    ∀ vs : List α,
      (vs = [] → vs.foldl (applyMinMax (Option.some cmp))
        (false, (default : α), (default : α)) = (false, default, default)) ∧
      (vs ≠ [] → (vs.foldl (applyMinMax (Option.some cmp))
        (false, (default : α), (default : α))).1 = true) ∧
      (∀ v ∈ vs,
        cmp (vs.foldl (applyMinMax (Option.some cmp))
          (false, (default : α), (default : α))).2.1 v ≤ 0 ∧
        0 ≤ cmp (vs.foldl (applyMinMax (Option.some cmp))
          (false, (default : α), (default : α))).2.2 v) := by
  intro vs
  induction vs using List.reverseRecOn with
  | nil =>
    refine ⟨fun _ => rfl, fun hn => absurd rfl hn, ?_⟩
    intro v hv
    simp at hv
  | append_singleton l w ih =>
    obtain ⟨ihNil, ihSome, ihMem⟩ := ih
    rw [List.foldl_append, List.foldl_cons, List.foldl_nil]
    refine ⟨fun hcon => absurd hcon (by simp), fun _ => ?_, ?_⟩
    · exact applyMinMax_fst_some cmp _ w
    · intro v hv
      rcases List.eq_nil_or_concat l with hl | _
      · subst hl
        rw [ihNil rfl]
        simp only [List.nil_append, List.mem_singleton] at hv
        subst hv
        rw [applyMinMax_some_false cmp _ v rfl]
        constructor
        · show cmp v v ≤ 0
          rw [h.cmp_self]
        · show 0 ≤ cmp v v
          rw [h.cmp_self]
      · rename_i hcat
        have hlne : l ≠ [] := by
          obtain ⟨L, a, hl⟩ := hcat
          rw [hl]
          simp
        have hTop := ihSome hlne
        rw [applyMinMax_some_true cmp _ w hTop]
        rw [List.mem_append, List.mem_singleton] at hv
        set st := l.foldl (applyMinMax (Option.some cmp))
          (false, (default : α), (default : α)) with hst
        rcases hv with hvl | hvw
        · obtain ⟨hmin, hmax⟩ := ihMem v hvl
          constructor
          · show cmp (if cmp w st.2.1 < 0 then w else st.2.1) v ≤ 0
            by_cases hlt : cmp w st.2.1 < 0
            · rw [if_pos hlt]
              exact h.transLe w st.2.1 v (by omega) hmin
            · rw [if_neg hlt]
              exact hmin
          · show 0 ≤ cmp (if 0 < cmp w st.2.2 then w else st.2.2) v
            by_cases hgt : 0 < cmp w st.2.2
            · rw [if_pos hgt]
              have h1 : cmp st.2.2 w < 0 := (h.flipLt st.2.2 w).mpr hgt
              have h2 : cmp v st.2.2 ≤ 0 := (h.le_flip v st.2.2).mpr hmax
              have h3 : cmp v w ≤ 0 := h.transLe v st.2.2 w h2 (by omega)
              exact (h.le_flip v w).mp h3
            · rw [if_neg hgt]
              exact hmax
        · subst hvw
          constructor
          · show cmp (if cmp v st.2.1 < 0 then v else st.2.1) v ≤ 0
            by_cases hlt : cmp v st.2.1 < 0
            · rw [if_pos hlt, h.cmp_self]
            · rw [if_neg hlt]
              exact (h.le_flip st.2.1 v).mpr (by omega)
          · show 0 ≤ cmp (if 0 < cmp v st.2.2 then v else st.2.2) v
            by_cases hgt : 0 < cmp v st.2.2
            · rw [if_pos hgt, h.cmp_self]
            · rw [if_neg hgt]
              have h2 : cmp v st.2.2 ≤ 0 := by omega
              exact (h.le_flip v st.2.2).mp h2

theorem intCmp_isTotalCompare : IsTotalCompare intCmp := by
  constructor
  · intro a b
    unfold intCmp
    split_ifs <;> omega
  · intro a b c h1 h2
    unfold intCmp at h1 h2 ⊢
    split_ifs at h1 h2 ⊢ <;> omega

theorem updateBlockSkipNodeMinMax_some_true {α : Type} (nd : ColumnBlockSkipNode α)
    (v : α) (cmp : α → α → Int) (h : nd.hasMinMax = true) :
    updateBlockSkipNodeMinMax nd v (Option.some cmp)
      = { nd with
          hasMinMax := true
          minimumValue := if cmp v nd.minimumValue < 0 then v else nd.minimumValue
          maximumValue := if 0 < cmp v nd.maximumValue then v else nd.maximumValue } := by
  show (if nd.hasMinMax = false then _ else _) = _
  rw [if_neg (by rw [h]; intro hcon; cases hcon)]

/-- CLAIM C2: in a stripe assembled by CStoreWriteRow, every block skip node
with hasMinMax true bounds every non-null value v written into that block:
cmp(min, v) is nonpositive and cmp(max, v) is nonnegative under the column's
comparison function, assumed to satisfy the total-order comparator laws; and
on a tie (comparison result 0) UpdateBlockSkipNodeMinMax keeps the incumbent
minimum and maximum datum unchanged. -/
theorem minmax_coverage {α : Type} (env : WriterEnv α) [Inhabited α]
    (compressionType : CompressionType) (stripeMaxRowCount blockRowCount : Nat)
    (rows : List ((Nat → α) × (Nat → Bool))) (hS : rows.length < stripeMaxRowCount)
    (c : Nat) (hc : c < env.columns.length) (cmp : α → α → Int)
    (hcmp : (env.columns.getD c default).cmp = Option.some cmp)
    (hlaws : IsTotalCompare cmp) (b : Nat) :
    ((skipNodeOf (freshRun env compressionType stripeMaxRowCount blockRowCount rows)
        c b).hasMinMax = true →
      ∀ v ∈ nonNullValuesInBlock blockRowCount c b 0 rows,
        cmp (skipNodeOf (freshRun env compressionType stripeMaxRowCount blockRowCount rows)
          c b).minimumValue v ≤ 0 ∧
        0 ≤ cmp (skipNodeOf (freshRun env compressionType stripeMaxRowCount blockRowCount rows)
          c b).maximumValue v) ∧
    (∀ nd : ColumnBlockSkipNode α, ∀ w : α, nd.hasMinMax = true →
      (cmp w nd.minimumValue = 0 →
        (updateBlockSkipNodeMinMax nd w (Option.some cmp)).minimumValue = nd.minimumValue) ∧
      (cmp w nd.maximumValue = 0 →
        (updateBlockSkipNodeMinMax nd w (Option.some cmp)).maximumValue = nd.maximumValue)) := by
  constructor
  · intro hmm v hv
    have hspec := (freshRun_node_spec env compressionType stripeMaxRowCount blockRowCount
      rows hS).2.2.2.2 c b hc
    have hproj := hspec.1
    rw [hcmp] at hproj
    have hmin : (skipNodeOf (freshRun env compressionType stripeMaxRowCount blockRowCount
        rows) c b).minimumValue
          = ((nonNullValuesInBlock blockRowCount c b 0 rows).foldl
            (applyMinMax (Option.some cmp)) (false, (default : α), (default : α))).2.1 :=
      congrArg (fun st => st.2.1) hproj
    have hmax : (skipNodeOf (freshRun env compressionType stripeMaxRowCount blockRowCount
        rows) c b).maximumValue
          = ((nonNullValuesInBlock blockRowCount c b 0 rows).foldl
            (applyMinMax (Option.some cmp)) (false, (default : α), (default : α))).2.2 :=
      congrArg (fun st => st.2.2) hproj
    have hfold := (applyMinMax_fold_spec cmp hlaws
      (nonNullValuesInBlock blockRowCount c b 0 rows)).2.2 v hv
    exact ⟨by rw [hmin]; exact hfold.1, by rw [hmax]; exact hfold.2⟩
  · intro nd w hmm
    constructor
    · intro htie
      rw [updateBlockSkipNodeMinMax_some_true nd w cmp hmm]
      show (if cmp w nd.minimumValue < 0 then w else nd.minimumValue) = nd.minimumValue
      rw [if_neg (by omega)]
    · intro htie
      rw [updateBlockSkipNodeMinMax_some_true nd w cmp hmm]
      show (if 0 < cmp w nd.maximumValue then w else nd.maximumValue) = nd.maximumValue
      rw [if_neg (by omega)]

/-- Witness for C2 at one integer column, two rows in one block. -/
theorem minmax_coverage_witness :
    ((skipNodeOf (freshRun witnessEnv1 CompressionType.none 4 2
        [(fun _ => (5 : Int), fun _ => false), (fun _ => (3 : Int), fun _ => false)])
        0 0).hasMinMax = true →
      ∀ v ∈ nonNullValuesInBlock 2 0 0 0
          [(fun _ => (5 : Int), fun _ => false), (fun _ => (3 : Int), fun _ => false)],
        intCmp (skipNodeOf (freshRun witnessEnv1 CompressionType.none 4 2
          [(fun _ => (5 : Int), fun _ => false), (fun _ => (3 : Int), fun _ => false)])
          0 0).minimumValue v ≤ 0 ∧
        0 ≤ intCmp (skipNodeOf (freshRun witnessEnv1 CompressionType.none 4 2
          [(fun _ => (5 : Int), fun _ => false), (fun _ => (3 : Int), fun _ => false)])
          0 0).maximumValue v) ∧
    (∀ nd : ColumnBlockSkipNode Int, ∀ w : Int, nd.hasMinMax = true →
      (intCmp w nd.minimumValue = 0 →
        (updateBlockSkipNodeMinMax nd w (Option.some intCmp)).minimumValue
          = nd.minimumValue) ∧
      (intCmp w nd.maximumValue = 0 →
        (updateBlockSkipNodeMinMax nd w (Option.some intCmp)).maximumValue
          = nd.maximumValue)) :=
  minmax_coverage witnessEnv1 CompressionType.none 4 2
    [(fun _ => (5 : Int), fun _ => false), (fun _ => (3 : Int), fun _ => false)]
    (by decide) 0 (by decide) intCmp rfl intCmp_isTotalCompare 0

/-- CLAIM C7: for every CStoreWriteRow call on an open stripe and every
column: the current block's skip node row count is incremented whether or not
the value is null; a null value clears the exists flag at the current block
row, appends nothing to the value buffer, and leaves min/max unconsulted; a
non-null value sets the exists flag, appends the serialized datum to the
value buffer, and updates min/max — hence each skip node's row count equals
the number of rows, null or not, assigned to its block. The buffer statements
are made away from the block-final row, where SerializeBlockData immediately
packs and resets the working buffers. -/
theorem writeRow_null_and_nonnull_effects {α : Type} (env : WriterEnv α) [Inhabited α] :
    (∀ (s : TableWriteState α) (columnValues : Nat → α) (columnNulls : Nat → Bool)
       (sb : StripeBuffers) (ssl : StripeSkipList α),
      s.stripeBuffers = Option.some sb → s.stripeSkipList = Option.some ssl →
      sb.rowCount + 1 < s.stripeMaxRowCount →
      ∀ c, c < env.columns.length →
      ((skipNodeOf (cstoreWriteRow env s columnValues columnNulls) c
          (sb.rowCount / s.tableFooter.blockRowCount)).rowCount
        = (ssl.blockSkipNodeArray c (sb.rowCount / s.tableFooter.blockRowCount)).rowCount
          + 1) ∧
      (columnNulls c = true →
        minMaxProj (skipNodeOf (cstoreWriteRow env s columnValues columnNulls) c
            (sb.rowCount / s.tableFooter.blockRowCount))
          = minMaxProj (ssl.blockSkipNodeArray c
              (sb.rowCount / s.tableFooter.blockRowCount)) ∧
        (sb.rowCount % s.tableFooter.blockRowCount ≠ s.tableFooter.blockRowCount - 1 →
          ((cstoreWriteRow env s columnValues columnNulls).blockDataArray c).existsArray
              (sb.rowCount % s.tableFooter.blockRowCount) = false ∧
          ((cstoreWriteRow env s columnValues columnNulls).blockDataArray c).valueBuffer
            = (s.blockDataArray c).valueBuffer)) ∧
      (columnNulls c = false →
        minMaxProj (skipNodeOf (cstoreWriteRow env s columnValues columnNulls) c
            (sb.rowCount / s.tableFooter.blockRowCount))
          = applyMinMax (env.columns.getD c default).cmp
              (minMaxProj (ssl.blockSkipNodeArray c
                (sb.rowCount / s.tableFooter.blockRowCount)))
              (columnValues c) ∧
        (sb.rowCount % s.tableFooter.blockRowCount ≠ s.tableFooter.blockRowCount - 1 →
          ((cstoreWriteRow env s columnValues columnNulls).blockDataArray c).existsArray
              (sb.rowCount % s.tableFooter.blockRowCount) = true ∧
          ((cstoreWriteRow env s columnValues columnNulls).blockDataArray c).valueBuffer
            = (s.blockDataArray c).valueBuffer
              ++ (env.columns.getD c default).serializeDatum (columnValues c)))) ∧
    (∀ (compressionType : CompressionType) (stripeMaxRowCount blockRowCount : Nat)
       (rows : List ((Nat → α) × (Nat → Bool))), rows.length < stripeMaxRowCount →
      ∀ c b, c < env.columns.length →
      (skipNodeOf (freshRun env compressionType stripeMaxRowCount blockRowCount
        rows) c b).rowCount
        = rowsAssignedToBlock blockRowCount rows.length b) := by
  constructor
  · intro s columnValues columnNulls sb ssl hsb hssl hnoflush c hc
    obtain ⟨hnode, hbda, _, _, _⟩ :=
      cstoreWriteRow_effect env s columnValues columnNulls sb ssl hsb hssl hnoflush
    have hnodebi := hnode c (sb.rowCount / s.tableFooter.blockRowCount) hc
    rw [if_pos rfl] at hnodebi
    refine ⟨?_, ?_, ?_⟩
    · rw [hnodebi, writeRowSkipNode_rowCount]
    · intro hnull
      refine ⟨?_, ?_⟩
      · rw [hnodebi, minMaxProj_writeRowSkipNode, hnull, if_pos rfl]
      · intro hfr
        rw [hbda hfr c hc]
        show (writeRowColumnData (env.columns.getD c default) (columnValues c)
          (columnNulls c) (sb.rowCount % s.tableFooter.blockRowCount)
          (s.blockDataArray c)).existsArray (sb.rowCount % s.tableFooter.blockRowCount)
            = false ∧ _
        unfold writeRowColumnData
        rw [hnull, if_pos rfl]
        exact ⟨setFn_same _ _ _, rfl⟩
    · intro hnonnull
      refine ⟨?_, ?_⟩
      · rw [hnodebi, minMaxProj_writeRowSkipNode, hnonnull]
        rw [if_neg (by intro hcon; cases hcon)]
      · intro hfr
        rw [hbda hfr c hc]
        unfold writeRowColumnData
        rw [hnonnull]
        rw [if_neg (by intro hcon; cases hcon)]
        exact ⟨setFn_same _ _ _, rfl⟩
  · intro compressionType stripeMaxRowCount blockRowCount rows hS c b hc
    exact ((freshRun_node_spec env compressionType stripeMaxRowCount blockRowCount
      rows hS).2.2.2.2 c b hc).2

/-- Witness for C7 at one integer column: a non-null write into the concrete
mid-stripe state, and the row count identity on a two-row fresh session. -/
theorem writeRow_null_and_nonnull_effects_witness :
    (((skipNodeOf (cstoreWriteRow witnessEnv1 witnessState (fun _ => (7 : Int))
          (fun _ => false)) 0 (witnessSB.rowCount / witnessState.tableFooter.blockRowCount)).rowCount
        = (witnessSSL.blockSkipNodeArray 0
            (witnessSB.rowCount / witnessState.tableFooter.blockRowCount)).rowCount + 1) ∧
      ((fun _ => false) 0 = true →
        minMaxProj (skipNodeOf (cstoreWriteRow witnessEnv1 witnessState (fun _ => (7 : Int))
            (fun _ => false)) 0 (witnessSB.rowCount / witnessState.tableFooter.blockRowCount))
          = minMaxProj (witnessSSL.blockSkipNodeArray 0
              (witnessSB.rowCount / witnessState.tableFooter.blockRowCount)) ∧
        (witnessSB.rowCount % witnessState.tableFooter.blockRowCount
            ≠ witnessState.tableFooter.blockRowCount - 1 →
          ((cstoreWriteRow witnessEnv1 witnessState (fun _ => (7 : Int))
              (fun _ => false)).blockDataArray 0).existsArray
              (witnessSB.rowCount % witnessState.tableFooter.blockRowCount) = false ∧
          ((cstoreWriteRow witnessEnv1 witnessState (fun _ => (7 : Int))
              (fun _ => false)).blockDataArray 0).valueBuffer
            = (witnessState.blockDataArray 0).valueBuffer)) ∧
      ((fun _ => false) 0 = false →
        minMaxProj (skipNodeOf (cstoreWriteRow witnessEnv1 witnessState (fun _ => (7 : Int))
            (fun _ => false)) 0 (witnessSB.rowCount / witnessState.tableFooter.blockRowCount))
          = applyMinMax (witnessEnv1.columns.getD 0 default).cmp
              (minMaxProj (witnessSSL.blockSkipNodeArray 0
                (witnessSB.rowCount / witnessState.tableFooter.blockRowCount)))
              ((fun _ => (7 : Int)) 0) ∧
        (witnessSB.rowCount % witnessState.tableFooter.blockRowCount
            ≠ witnessState.tableFooter.blockRowCount - 1 →
          ((cstoreWriteRow witnessEnv1 witnessState (fun _ => (7 : Int))
              (fun _ => false)).blockDataArray 0).existsArray
              (witnessSB.rowCount % witnessState.tableFooter.blockRowCount) = true ∧
          ((cstoreWriteRow witnessEnv1 witnessState (fun _ => (7 : Int))
              (fun _ => false)).blockDataArray 0).valueBuffer
            = (witnessState.blockDataArray 0).valueBuffer
              ++ (witnessEnv1.columns.getD 0 default).serializeDatum ((fun _ => (7 : Int)) 0)))) ∧
    ((skipNodeOf (freshRun witnessEnv1 CompressionType.none 4 2
        [(fun _ => (9 : Int), fun _ => true), (fun _ => (2 : Int), fun _ => false)])
        0 0).rowCount = rowsAssignedToBlock 2 2 0) :=
  ⟨(writeRow_null_and_nonnull_effects witnessEnv1).1 witnessState (fun _ => (7 : Int))
      (fun _ => false) witnessSB witnessSSL rfl rfl (by decide) 0 (by decide),
   (writeRow_null_and_nonnull_effects witnessEnv1).2 CompressionType.none 4 2
      [(fun _ => (9 : Int), fun _ => true), (fun _ => (2 : Int), fun _ => false)]
      (by decide) 0 0 (by decide)⟩

end CStoreFdw
